import Mathlib

/-!
# Broadcast chat server (`server.cpp`, `duplex_server_example.cpp`)

A shallow embedding of the client table, the dispatcher, the teardown routine, the
per-client session and the accept loop of the chat server, followed by theorems about them.

Conventions of the embedding:

* a C `int` is an `Int`; a byte is a `Nat` (its unsigned value);
* a `char` array is a `List Nat`; a C string is the bytes before the first `0`;
* system calls are recorded as `Event`s in a trace, in program order; the results the
  environment gives (results of `write`, `recv`, `accept`, `pthread_create`, the value of
  `errno`) are parameters;
* a `for (i = 0; i < N; ++i)` loop is a function of the number of iterations left and of `i`.
-/

namespace CppChat

/-! ## C strings and `printf` formatting -/

/-- The bytes of a C string literal (without the terminating NUL). -/
def cstr (s : String) : List Nat := s.toList.map Char.toNat

/-- Decimal digits of `n`, most significant first, in front of `acc`; `fuel` bounds the
number of digits produced. -/
def toDigitsFuel : Nat → Nat → List Nat → List Nat
  | 0, _, acc => acc
  | fuel + 1, n, acc =>
    if n / 10 = 0 then (48 + n % 10) :: acc
    else toDigitsFuel fuel (n / 10) ((48 + n % 10) :: acc)

/-- The ASCII decimal digits of a natural number (`"0"` for zero). -/
def formatNat (n : Nat) : List Nat := toDigitsFuel (n + 1) n []

/-- What `printf` produces for the conversion `%d`: an optional minus sign and the decimal
digits of the absolute value. -/
def formatInt (v : Int) : List Nat :=
  if v < 0 then 45 :: formatNat v.natAbs else formatNat v.natAbs

/-- The call `strlen(buf)`: the number of bytes before the first NUL. -/
def strlen (buf : List Nat) : Nat := (buf.takeWhile (fun b => b != 0)).length

/-- The C string stored in `buf`: what `printf("%s", buf)` prints. -/
def cstring (buf : List Nat) : List Nat := buf.takeWhile (fun b => b != 0)

/-- Storing `bytes` in `buf` from index `off` on. -/
def poke (buf : List Nat) (off : Nat) (bytes : List Nat) : List Nat :=
  buf.take off ++ bytes ++ buf.drop (off + bytes.length)

/-- The call `sprintf(buf, ...)` whose formatted text is `text`: the text and a terminating
NUL are stored at the start of `buf`. -/
def sprintf (buf : List Nat) (text : List Nat) : List Nat := poke buf 0 (text ++ [0])

/-- The call `snprintf(buf, n, ...)`: as `sprintf`, with the text cut to `n - 1` bytes. -/
def snprintf (buf : List Nat) (n : Nat) (text : List Nat) : List Nat :=
  poke buf 0 (text.take (n - 1) ++ [0])

/-! ## `atoi`, as the client uses it on the handshake -/

/-- The predicate `isdigit`. -/
def isDigit (b : Nat) : Bool := 48 ≤ b && b ≤ 57

/-- The predicate `isspace` (space, and `\t \n \v \f \r`). -/
def isSpace (b : Nat) : Bool := b == 32 || (9 ≤ b && b ≤ 13)

/-- The digit loop of `atoi`: accumulates digits until the first byte that is not one. -/
def atoiDigits : Nat → List Nat → Nat
  | acc, [] => acc
  | acc, b :: bs => if isDigit b then atoiDigits (10 * acc + (b - 48)) bs else acc

/-- The integer a text denotes for `strtol(s, NULL, 10)`, before any range check: white
space is skipped, an optional sign is read, then the digits. -/
def atoiValue (s : List Nat) : Int :=
  match s.dropWhile isSpace with
  | [] => 0
  | b :: r =>
    if b = 45 then - (atoiDigits 0 r : Int)
    else if b = 43 then (atoiDigits 0 r : Int)
    else (atoiDigits 0 (b :: r) : Int)

/-- The least value of a 64-bit `long`. -/
def LONG_MIN : Int := -9223372036854775808

/-- The greatest value of a 64-bit `long`. -/
def LONG_MAX : Int := 9223372036854775807

/-- The result of `strtol` for the value `v`: out of the range of `long` it is `LONG_MIN` or
`LONG_MAX`. -/
def clampLong (v : Int) : Int :=
  if v < LONG_MIN then LONG_MIN else if LONG_MAX < v then LONG_MAX else v

/-- The conversion of a `long` to a 32-bit `int`: the value modulo `2 ^ 32`, in the range of
`int`. -/
def toInt32 (v : Int) : Int := (v + 2147483648) % 4294967296 - 2147483648

/-- The call `atoi(s)` of the client (client_example.cpp, line 79), whose result is a
32-bit `int`: the C library computes it as `(int) strtol(s, NULL, 10)`. -/
def atoi (s : List Nat) : Int := toInt32 (clampLong (atoiValue s))

/-! ## Traces -/

/-- The observable actions of the server. -/
inductive Event where
  /-- The call `write(fd, buf, size)`; `bytes` are the `size` bytes at `buf`. -/
  | write (fd : Int) (bytes : List Nat)
  /-- The call `recv(fd, ...)`. -/
  | recv (fd : Int)
  /-- The call `close(fd)`. -/
  | close (fd : Int)
  /-- A `printf` to standard output, with the text printed. -/
  | printf (text : List Nat)
  /-- The call `pthread_create(..., HandleClient, data)` with `*data = arg`. -/
  | pthread_create (arg : Int)
  /-- The call `pthread_exit(code)`. -/
  | pthread_exit (code : Int)
  /-- The call `exit(code)`. -/
  | exit (code : Int)
  deriving DecidableEq, Repr

/-- The `write` calls of a trace, in order, as pairs of descriptor and bytes. -/
def writesOf : List Event → List (Int × List Nat)
  | [] => []
  | Event.write fd bytes :: es => (fd, bytes) :: writesOf es
  | _ :: es => writesOf es

/-- The descriptors passed to `close` in a trace, in order. -/
def closesOf : List Event → List Int
  | [] => []
  | Event.close fd :: es => fd :: closesOf es
  | _ :: es => closesOf es

/-! ## `server.cpp` -/

/-- The constant `MAXIMUM_NUMBER_OF_CLIENTS` (server.cpp, line 21). -/
def MAXIMUM_NUMBER_OF_CLIENTS : Nat := 255

/-- The constant `BUFFER_SIZE` of `HandleClient` (server.cpp, line 77). -/
def BUFFER_SIZE : Nat := 1023

/-- The array read `client_sockets[i]`. The table is a list of `MAXIMUM_NUMBER_OF_CLIENTS`
descriptors; `0` marks a free slot. -/
def slot (client_sockets : List Int) (i : Nat) : Int := client_sockets.getD i 0

/-- The loop of `DispatchMessage` (server.cpp, lines 60-69), with `n` iterations left at
index `i`. `write_result i` is what `write` returns for the write issued at slot `i`. -/
def DispatchMessage.loop (client_sockets : List Int) (socket_fd : Int) (message : List Nat)
    (size : Nat) (write_result : Nat → Int) : Nat → Nat → List Event
  | 0, _ => []
  | n + 1, i =>
    let client_socket := slot client_sockets i
    if client_socket = 0 ∨ client_socket = socket_fd then
      DispatchMessage.loop client_sockets socket_fd message size write_result n (i + 1)
    else
      let bytes_written := write_result i
      Event.write client_socket (message.take size) ::
        ((if bytes_written = -1 then
            [Event.printf (cstr "Couldn't write to socket " ++ formatInt client_socket
              ++ cstr ".\n")]
          else []) ++
          DispatchMessage.loop client_sockets socket_fd message size write_result n (i + 1))

/-- The function `DispatchMessage(socket_fd, message, size)` (server.cpp, lines 58-70). It
reads the table `client_sockets` and returns it together with the trace of the call. -/
def DispatchMessage (client_sockets : List Int) (socket_fd : Int) (message : List Nat)
    (size : Nat) (write_result : Nat → Int) : List Int × List Event :=
  (client_sockets,
    DispatchMessage.loop client_sockets socket_fd message size write_result
      MAXIMUM_NUMBER_OF_CLIENTS 0)

/-- The slots at which `DispatchMessage` writes: the live ones that do not hold the sender. -/
def recipientSlots (client_sockets : List Int) (socket_fd : Int) : List Nat :=
  (List.range MAXIMUM_NUMBER_OF_CLIENTS).filter
    (fun i => decide (slot client_sockets i ≠ 0 ∧ slot client_sockets i ≠ socket_fd))

/-- The removal loop of `TerminateClient` (server.cpp, lines 32-41), with `n` iterations
left at index `i`: the first slot that holds `socket_fd` is closed and zeroed, then the loop
breaks. Returns the table and the trace. -/
def TerminateClient.loop (socket_fd : Int) : Nat → Nat → List Int → List Int × List Event
  | 0, _, client_sockets => (client_sockets, [])
  | n + 1, i, client_sockets =>
    let client_socket := slot client_sockets i
    if client_socket = socket_fd then
      (client_sockets.set i 0, [Event.close client_socket])
    else TerminateClient.loop socket_fd n (i + 1) client_sockets

/-- The table-removal step of `TerminateClient` (server.cpp, lines 32-41). -/
def TerminateClient.remove (client_sockets : List Int) (socket_fd : Int) :
    List Int × List Event :=
  TerminateClient.loop socket_fd MAXIMUM_NUMBER_OF_CLIENTS 0 client_sockets

/-- The text `">>> Client %d left <<<\n"` formatted with `socket_fd`. -/
def leftText (socket_fd : Int) : List Nat :=
  cstr ">>> Client " ++ formatInt socket_fd ++ cstr " left <<<\n"

/-- The text `">>> Client %d joined <<<\n"` formatted with `socket_fd`. -/
def joinedText (socket_fd : Int) : List Nat :=
  cstr ">>> Client " ++ formatInt socket_fd ++ cstr " joined <<<\n"

/-- The text `"Client %d: "` formatted with `socket_fd`. -/
def labelText (socket_fd : Int) : List Nat :=
  cstr "Client " ++ formatInt socket_fd ++ cstr ": "

/-- The text `"[Exit %d]: %s\n"` formatted with `errno` and `message`. -/
def exitText (errno : Int) (message : List Nat) : List Nat :=
  cstr "[Exit " ++ formatInt errno ++ cstr "]: " ++ message ++ cstr "\n"

/-- The function `TerminateClient(socket_fd, code, message)` (server.cpp, lines 27-48):
removal from the table, then the "left" notification through `DispatchMessage`, then the
log line and `pthread_exit`. `write_result` gives the results of the writes of the
dispatch. Returns the table and the trace. -/
def TerminateClient (client_sockets : List Int) (socket_fd code : Int) (message : List Nat)
    (errno : Int) (write_result : Nat → Int) : List Int × List Event :=
  let temp : List Nat := List.replicate 255 0
  let removed := TerminateClient.remove client_sockets socket_fd
  let temp := sprintf temp (leftText socket_fd)
  let dispatched := DispatchMessage removed.1 socket_fd temp (strlen temp) write_result
  (dispatched.1,
    removed.2 ++ dispatched.2 ++
      [Event.printf (exitText errno message), Event.pthread_exit code])

/-- The function `Terminate(code, message)` (server.cpp, lines 51-55). -/
def Terminate (code : Int) (message : List Nat) (errno : Int) : List Event :=
  [Event.printf (exitText errno message), Event.exit code]

/-- The shared state of the server: the global table `client_sockets` and the `static`
buffer of `HandleClient` (server.cpp, lines 22 and 78). -/
structure ServerState where
  /-- The table `client_sockets`. -/
  client_sockets : List Int
  /-- The buffer `buffer` of `HandleClient`. -/
  buffer : List Nat
  deriving DecidableEq, Repr

/-- What one call of `recv` gives: its return value and the bytes it stored. -/
structure RecvResult where
  /-- The value returned by `recv`. -/
  bytes_received : Int
  /-- The bytes stored in the buffer (`bytes_received` of them when that is positive). -/
  data : List Nat
  deriving DecidableEq, Repr

/-- What the environment gives to one session. -/
structure SessionEnv where
  /-- The value of `errno` when it is printed. -/
  errno : Int
  /-- The results of the writes of the "joined" dispatch, by slot. -/
  joined_writes : Nat → Int
  /-- The result of the write of the identity (server.cpp, line 88). -/
  id_write : Int
  /-- The results of the writes of the dispatch of the `k`-th message, by slot. -/
  message_writes : Nat → Nat → Int
  /-- The results of the writes of the "left" dispatch, by slot. -/
  left_writes : Nat → Int

/-- Where control is after a part of a session. -/
inductive Control where
  /-- Control goes on to the next statement (or to the next iteration of the loop). -/
  | next
  /-- The `while` loop was left by `break`. -/
  | left_loop
  /-- The thread has called `pthread_exit`. -/
  | exited
  /-- The thread is blocked in `recv`: the given results of `recv` are used up. -/
  | blocked
  deriving DecidableEq, Repr

/-- The result of a part of a session. -/
structure SessionResult where
  /-- The shared state afterwards. -/
  state : ServerState
  /-- The trace of the part. -/
  trace : List Event
  /-- Where control is afterwards. -/
  control : Control
  deriving DecidableEq, Repr

/-- The start of `HandleClient` (server.cpp, lines 75-99), up to the `while` loop. Returns
also `buffer_start_index` (meaningful when the loop is reached). -/
def HandleClient.joining (st : ServerState) (socket_fd : Int) (env : SessionEnv) :
    SessionResult × Nat :=
  let buffer := sprintf st.buffer (joinedText socket_fd)
  let printed := Event.printf (cstring buffer)
  let joined := DispatchMessage st.client_sockets socket_fd buffer (strlen buffer)
    env.joined_writes
  let buffer := sprintf buffer (formatInt socket_fd)
  let id_event := Event.write socket_fd (buffer.take (strlen buffer))
  let bytes_written := env.id_write
  if bytes_written = -1 then
    let t := TerminateClient joined.1 socket_fd 0 (cstr "Couldn't write to socket.")
      env.errno env.left_writes
    ({ state := { client_sockets := t.1, buffer := buffer },
       trace := printed :: joined.2 ++ id_event :: t.2,
       control := Control.exited }, 0)
  else
    let buffer := snprintf buffer BUFFER_SIZE (labelText socket_fd)
    let buffer_start_index := strlen buffer
    ({ state := { client_sockets := joined.1, buffer := buffer },
       trace := printed :: joined.2 ++
         [id_event, Event.printf (cstr "[Info]: Sent ID to the client.\n")],
       control := Control.next }, buffer_start_index)

/-- The contents of `buffer` when `DispatchMessage` is called in the loop (server.cpp, lines
111 and 123): the received bytes stored from `buffer_start_index` on, and a NUL stored at
index `buffer_start_index + bytes_received`. -/
def HandleClient.received (buffer : List Nat) (buffer_start_index : Nat) (r : RecvResult) :
    List Nat :=
  poke (poke buffer buffer_start_index r.data)
    ((buffer_start_index : Int) + r.bytes_received).toNat [0]

/-- One iteration of the `while` loop of `HandleClient` (server.cpp, lines 111-127) whose
`recv` gives `r`. -/
def HandleClient.iteration (st : ServerState) (socket_fd : Int) (buffer_start_index : Nat)
    (r : RecvResult) (write_result : Nat → Int) : SessionResult :=
  if r.bytes_received = -1 then
    { state := st,
      trace := [Event.recv socket_fd, Event.printf (cstr "Issue with connection.\n")],
      control := Control.left_loop }
  else if r.bytes_received = 0 then
    { state := st,
      trace := [Event.recv socket_fd,
        Event.printf (cstr "Client " ++ formatInt socket_fd ++ cstr " disconnected.\n")],
      control := Control.left_loop }
  else
    let buffer := HandleClient.received st.buffer buffer_start_index r
    let dispatched := DispatchMessage st.client_sockets socket_fd buffer (strlen buffer)
      write_result
    { state := { client_sockets := dispatched.1, buffer := buffer },
      trace := [Event.recv socket_fd, Event.printf (cstring buffer)] ++ dispatched.2,
      control := Control.next }

/-- The `while` loop of `HandleClient` (server.cpp, lines 102-128) on the successive results
of `recv`; `k` counts the iterations done. When the results are used up the session is
blocked in `recv`. -/
def HandleClient.loop (socket_fd : Int) (buffer_start_index : Nat) (env : SessionEnv) :
    Nat → List RecvResult → ServerState → SessionResult
  | _, [], st => { state := st, trace := [Event.recv socket_fd], control := Control.blocked }
  | k, r :: rs, st =>
    let it := HandleClient.iteration st socket_fd buffer_start_index r (env.message_writes k)
    if it.control = Control.next then
      let rest := HandleClient.loop socket_fd buffer_start_index env (k + 1) rs it.state
      { state := rest.state, trace := it.trace ++ rest.trace, control := rest.control }
    else it

/-- The function `HandleClient` (server.cpp, lines 73-133), run on its own from the state
`st`, for the descriptor `socket_fd`, on the successive results `recvs` of `recv`. -/
def HandleClient (st : ServerState) (socket_fd : Int) (env : SessionEnv)
    (recvs : List RecvResult) : SessionResult :=
  let j := HandleClient.joining st socket_fd env
  if j.1.control = Control.next then
    let l := HandleClient.loop socket_fd j.2 env 0 recvs j.1.state
    if l.control = Control.left_loop then
      let t := TerminateClient l.state.client_sockets socket_fd 0
        (cstr "Tearing down client.") env.errno env.left_writes
      { state := { client_sockets := t.1, buffer := l.state.buffer },
        trace := j.1.trace ++ l.trace ++ t.2,
        control := Control.exited }
    else { state := l.state, trace := j.1.trace ++ l.trace, control := l.control }
  else j.1

/-- The registration loop of `main` (server.cpp, lines 208-215), with `n` iterations left at
index `i`: the first free slot receives `client_socket`, then the loop breaks. -/
def main.registerLoop (client_socket : Int) : Nat → Nat → List Int → List Int
  | 0, _, client_sockets => client_sockets
  | n + 1, i, client_sockets =>
    if slot client_sockets i = 0 then client_sockets.set i client_socket
    else main.registerLoop client_socket n (i + 1) client_sockets

/-- The registration of an accepted connection (server.cpp, lines 208-215). -/
def main.register (client_sockets : List Int) (client_socket : Int) : List Int :=
  main.registerLoop client_socket MAXIMUM_NUMBER_OF_CLIENTS 0 client_sockets

/-- The result of one iteration of the accept loop. -/
structure LoopResult where
  /-- The table afterwards. -/
  client_sockets : List Int
  /-- The trace of the iteration. -/
  trace : List Event
  /-- Whether the loop goes on (`false` after `exit`). -/
  goes_on : Bool
  deriving DecidableEq, Repr

/-- One iteration of the accept loop of `main` (server.cpp, lines 193-223). `success` is the
variable of that name (the result of `listen`), `client_socket` the result of `accept`,
`status` the result of `pthread_create`. -/
def main.iteration (success errno : Int) (client_sockets : List Int)
    (client_socket status : Int) : LoopResult :=
  if client_socket = -1 then
    { client_sockets := client_sockets,
      trace := Terminate success (cstr "Couldn't accept request from client.") errno,
      goes_on := false }
  else
    let registered := main.register client_sockets client_socket
    let spawn := [Event.printf (cstr "[Info]: A client connected!\n"),
      Event.pthread_create client_socket]
    if status ≠ 0 then
      { client_sockets := registered,
        trace := spawn ++ Terminate status (cstr "Couldn't create thread.") errno,
        goes_on := false }
    else { client_sockets := registered, trace := spawn, goes_on := true }

/-- The table of a server that has just started: all slots are zero. -/
def emptyTable : List Int := List.replicate MAXIMUM_NUMBER_OF_CLIENTS 0

/-- The live entries of a table: the contents of its non-zero slots, in slot order. -/
def liveEntries (client_sockets : List Int) : List Int :=
  client_sockets.filter (fun c => c != 0)

/-- A step on the table: the registration of an accepted descriptor, or the removal done
by `TerminateClient` for a descriptor. -/
inductive TableStep where
  /-- The registration loop of `main` for the accepted descriptor `client_socket`. -/
  | register (client_socket : Int)
  /-- The removal loop of `TerminateClient(socket_fd, ...)`. -/
  | terminate (socket_fd : Int)
  deriving DecidableEq, Repr

/-- The table after one step. -/
def applyStep (client_sockets : List Int) : TableStep → List Int
  | TableStep.register c => main.register client_sockets c
  | TableStep.terminate fd => (TerminateClient.remove client_sockets fd).1

/-- The table after a sequence of steps. -/
def runSteps (client_sockets : List Int) (steps : List TableStep) : List Int :=
  steps.foldl applyStep client_sockets

/-- Every registration of the sequence is of a non-zero descriptor, other than `-1`, that
no slot of the table holds at that time (what `accept` returns for a new connection). -/
def acceptsFresh : List Int → List TableStep → Prop
  | _, [] => True
  | client_sockets, TableStep.register c :: steps =>
    c ≠ 0 ∧ c ≠ -1 ∧ c ∉ client_sockets ∧
      acceptsFresh (main.register client_sockets c) steps
  | client_sockets, TableStep.terminate fd :: steps =>
    acceptsFresh (TerminateClient.remove client_sockets fd).1 steps

/-- Whether a sequence of steps satisfies `acceptsFresh` can be computed. -/
instance acceptsFresh.instDecidable :
    (client_sockets : List Int) → (steps : List TableStep) →
      Decidable (acceptsFresh client_sockets steps)
  | _, [] => isTrue trivial
  | client_sockets, TableStep.register c :: steps =>
    have := acceptsFresh.instDecidable (main.register client_sockets c) steps
    inferInstanceAs (Decidable (c ≠ 0 ∧ c ≠ -1 ∧ c ∉ client_sockets ∧
      acceptsFresh (main.register client_sockets c) steps))
  | client_sockets, TableStep.terminate fd :: steps =>
    acceptsFresh.instDecidable (TerminateClient.remove client_sockets fd).1 steps

/-! ## Tables as lists: what the two table loops compute -/

/-- The list `xs` with `c` in place of its first zero (unchanged when it has none). -/
def fillFirst (c : Int) : List Int → List Int
  | [] => []
  | x :: xs => if x = 0 then c :: xs else x :: fillFirst c xs

/-- The list `xs` with zero in place of the first occurrence of `fd` (unchanged when it has
none). -/
def zeroFirst (fd : Int) : List Int → List Int
  | [] => []
  | x :: xs => if x = fd then 0 :: xs else x :: zeroFirst fd xs

/-- A table with no free slot: the descriptors 4, 5, ..., 258. -/
def fullTable : List Int :=
  (List.range MAXIMUM_NUMBER_OF_CLIENTS).map (fun (i : Nat) => Int.ofNat i + 4)

/-- A table with the two clients 4 and 5 in its first two slots. -/
def twoClients : List Int := 4 :: 5 :: List.replicate 253 0

/-- An environment in which every write succeeds. -/
def calmEnv : SessionEnv :=
  { errno := 0, joined_writes := fun _ => 1, id_write := 1,
    message_writes := fun _ _ => 1, left_writes := fun _ => 1 }

/-! ## `duplex_server_example.cpp` -/

namespace Duplex

/-- The globals `number_of_clients` and `clients` (duplex_server_example.cpp, lines 21-22). -/
structure State where
  /-- The counter `number_of_clients`. -/
  number_of_clients : Nat
  /-- The table `clients`, of 255 descriptors. -/
  clients : List Int
  deriving DecidableEq, Repr

/-- The structure `ClientData` (duplex_server_example.cpp, lines 27-31). -/
structure ClientData where
  /-- The descriptor of the connection. -/
  client_socket : Int
  /-- The identity of the client. -/
  id : Nat
  deriving DecidableEq, Repr

/-- The state of a server that has just started. -/
def initial : State := { number_of_clients := 0, clients := List.replicate 255 0 }

/-- The registration of the accept loop (duplex_server_example.cpp, lines 216-217):
`clients[number_of_clients++] = client_socket`, then the client data with the incremented
count as `id`. No result when the index is outside the array. -/
def main.register (st : State) (client_socket : Int) : Option (State × ClientData) :=
  if st.number_of_clients < 255 then
    some ({ number_of_clients := st.number_of_clients + 1,
            clients := st.clients.set st.number_of_clients client_socket },
          { client_socket := client_socket, id := st.number_of_clients + 1 })
  else none

/-- The loop of `DispatchMessage` (duplex_server_example.cpp, lines 62-71), with `n`
iterations left at index `i`. -/
def DispatchMessage.loop (clients : List Int) (client : Int) (message : List Nat)
    (size : Nat) (write_result : Nat → Int) : Nat → Nat → List Event
  | 0, _ => []
  | n + 1, i =>
    let client_socket := slot clients i
    if client_socket = 0 ∨ client_socket = client then
      DispatchMessage.loop clients client message size write_result n (i + 1)
    else
      let bytes_written := write_result i
      Event.write client_socket (message.take size) ::
        ((if bytes_written = -1 then
            [Event.printf (cstr "Couldn't write to socket " ++ formatInt client_socket
              ++ cstr ".")]
          else []) ++
          DispatchMessage.loop clients client message size write_result n (i + 1))

/-- The function `DispatchMessage(client, message, size)` (duplex_server_example.cpp, lines
60-72): the trace of the call. -/
def DispatchMessage (clients : List Int) (client : Int) (message : List Nat) (size : Nat)
    (write_result : Nat → Int) : List Event :=
  DispatchMessage.loop clients client message size write_result 255 0

/-- The function `TerminateClient(client, code, message)` (duplex_server_example.cpp, lines
34-50). No result when `clients[client->id]` is outside the array or the assertion fails. -/
def TerminateClient (st : State) (client : ClientData) (code : Int) (message : List Nat)
    (errno : Int) (write_result : Nat → Int) : Option (State × List Event) :=
  let temp : List Nat := List.replicate 255 0
  if client.id < 255 then
    let clients := st.clients.set client.id 0
    if st.number_of_clients ≠ 0 then
      let number_of_clients := st.number_of_clients - 1
      let temp := sprintf temp (leftText client.id)
      let dispatched := DispatchMessage clients client.id temp (strlen temp) write_result
      some ({ number_of_clients := number_of_clients, clients := clients },
        dispatched ++ [Event.close client.client_socket,
          Event.printf (exitText errno message), Event.pthread_exit code])
    else none
  else none

end Duplex

/-! ## Sessions: example state, bounds, results of `recv` -/

/-- The state of a server that holds the clients 4 and 5, with the buffer of `HandleClient`
as it is when the program starts. -/
def freshState : ServerState :=
  { client_sockets := twoClients, buffer := List.replicate BUFFER_SIZE 0 }

/-- The least value of a 32-bit `int`. -/
def INT_MIN : Int := -2147483648

/-- The greatest value of a 32-bit `int`. -/
def INT_MAX : Int := 2147483647

/-- The value `max_size_to_receive` of `HandleClient` (server.cpp, line 96). -/
def max_size_to_receive : Nat := 1000

/-- What `recv(socket_fd, &buffer[buffer_start_index], max_size_to_receive, 0)` can give:
`-1`, or the number of bytes stored, at most `max_size_to_receive`. -/
def RecvResult.wellFormed (r : RecvResult) : Prop :=
  r.bytes_received = -1 ∨
    (r.bytes_received = (r.data.length : Int) ∧ r.data.length ≤ max_size_to_receive)

/-- Whether a result of `recv` is well formed can be computed. -/
instance RecvResult.instDecidableWellFormed (r : RecvResult) : Decidable r.wellFormed :=
  inferInstanceAs (Decidable (r.bytes_received = -1 ∨
    (r.bytes_received = (r.data.length : Int) ∧ r.data.length ≤ max_size_to_receive)))

/-- The shared state when a session for `socket_fd`, started in the state `st`, has gone
through the start of `HandleClient` and through the iterations of its loop for the results
`earlier` of `recv`. -/
def stateAfter (st : ServerState) (socket_fd : Int) (env : SessionEnv)
    (earlier : List RecvResult) : ServerState :=
  (HandleClient.loop socket_fd (HandleClient.joining st socket_fd env).2 env 0 earlier
    (HandleClient.joining st socket_fd env).1.state).state

/-! ## A reconnection on the duplex server -/

namespace Duplex

end Duplex

/-! ## The function `main` of `server.cpp` -/

/-- What the environment gives to the set-up part of `main`. -/
structure SetupEnv where
  /-- The value of `errno` when it is printed. -/
  errno : Int
  /-- The result of `socket`. -/
  socket_result : Int
  /-- The result of `inet_pton`. -/
  inet_pton_result : Int
  /-- The result of `bind`. -/
  bind_result : Int
  /-- The result of `listen`. -/
  listen_result : Int
  deriving DecidableEq, Repr

/-- The set-up part of `main` (server.cpp, lines 139-191). Returns the trace and, when the
accept loop is reached, the value of the variable `success` there. `Terminate` does not
return, so nothing follows it. -/
def main.setup (argc : Int) (env : SetupEnv) : List Event × Option Int :=
  if argc ≠ 2 then (Terminate 1 (cstr "Usage: <port>") env.errno, none)
  else
    let success : Int := 0
    let listen_socket := env.socket_result
    if listen_socket = -1 then
      (Terminate success (cstr "Couldn't create socket.") env.errno, none)
    else
      let success := env.inet_pton_result
      if success ≤ 0 then (Terminate success (cstr "Invalid address.") env.errno, none)
      else
        let success := env.bind_result
        if success = -1 then
          (Terminate success (cstr "Couldn't bind socket.") env.errno, none)
        else
          let success := env.listen_result
          if success = -1 then
            (Terminate success (cstr "Can't listen to socket.") env.errno, none)
          else ([Event.printf (cstr "[Info]: Waiting for clients...\n")], some success)

/-- The accept loop of `main` (server.cpp, lines 193-223) on the successive results of
`accept` and of `pthread_create`. When the results are used up the loop is blocked in
`accept` (`goes_on` is `true`); after `exit` nothing follows (`goes_on` is `false`). -/
def main.loop (success errno : Int) : List (Int × Int) → List Int → LoopResult
  | [], client_sockets => { client_sockets := client_sockets, trace := [], goes_on := true }
  | (client_socket, status) :: rest, client_sockets =>
    let it := main.iteration success errno client_sockets client_socket status
    if it.goes_on then
      let r := main.loop success errno rest it.client_sockets
      { client_sockets := r.client_sockets, trace := it.trace ++ r.trace,
        goes_on := r.goes_on }
    else it

/-- The function `main` (server.cpp, lines 137-224), from the start of the program: the
set-up, then the accept loop on `accepts`. -/
def main (argc : Int) (env : SetupEnv) (accepts : List (Int × Int)) : LoopResult :=
  match main.setup argc env with
  | (trace, none) => { client_sockets := emptyTable, trace := trace, goes_on := false }
  | (trace, some success) =>
    let r := main.loop success env.errno accepts emptyTable
    { client_sockets := r.client_sockets, trace := trace ++ r.trace, goes_on := r.goes_on }

/-! ## A scenario with two clients -/

/-- The state of a server that has just started: the table and the `static` buffer are
zero-initialised. -/
def initialState : ServerState :=
  { client_sockets := emptyTable, buffer := List.replicate BUFFER_SIZE 0 }

/-- The traces of the four parts of a scenario. -/
structure Scenario where
  /-- The start of the session of the first client. -/
  joinA : List Event
  /-- The start of the session of the second client. -/
  joinB : List Event
  /-- The iteration of the first client's loop that receives the payload. -/
  message : List Event
  /-- The teardown of the second client. -/
  leaveB : List Event
  deriving DecidableEq, Repr

/-- The scenario on a server that has just started: `accept` returns `a`, the session of `a`
starts; `accept` returns `b`, the session of `b` starts; the session of `a` receives
`payload`; the session of `b` receives 0 (its peer has closed) and is torn down. -/
def scenario (a b : Int) (env : SessionEnv) (payload : List Nat) : Scenario :=
  let t1 := (main.iteration 0 env.errno initialState.client_sockets a 0).client_sockets
  let jA := HandleClient.joining { client_sockets := t1, buffer := initialState.buffer } a env
  let t2 := (main.iteration 0 env.errno jA.1.state.client_sockets b 0).client_sockets
  let jB := HandleClient.joining { client_sockets := t2, buffer := jA.1.state.buffer } b env
  let itA := HandleClient.iteration jB.1.state a jA.2
    { bytes_received := payload.length, data := payload } (env.message_writes 0)
  let itB := HandleClient.iteration itA.state b jB.2 { bytes_received := 0, data := [] }
    (env.message_writes 0)
  let leave := TerminateClient itB.state.client_sockets b 0 (cstr "Tearing down client.")
    env.errno env.left_writes
  { joinA := jA.1.trace, joinB := jB.1.trace, message := itA.trace,
    leaveB := itB.trace ++ leave.2 }

/-! ## Register, unregister and broadcast as atomic steps -/

/-- An atomic step on the table. -/
inductive AtomicStep where
  /-- The registration loop of `main` for the accepted descriptor `client_socket`. -/
  | register (client_socket : Int)
  /-- The call `TerminateClient(socket_fd, 0, ...)`. -/
  | unregister (socket_fd : Int) (errno : Int) (write_result : Nat → Int)
  /-- The call `DispatchMessage(socket_fd, message, size)`. -/
  | broadcast (socket_fd : Int) (message : List Nat) (size : Nat) (write_result : Nat → Int)

/-- The table after one atomic step. -/
def applyAtomic (client_sockets : List Int) : AtomicStep → List Int
  | AtomicStep.register c => main.register client_sockets c
  | AtomicStep.unregister fd errno w =>
    (TerminateClient client_sockets fd 0 (cstr "Tearing down client.") errno w).1
  | AtomicStep.broadcast s message size w =>
    (DispatchMessage client_sockets s message size w).1

/-- The table after a sequence of atomic steps. -/
def runAtomic (client_sockets : List Int) (steps : List AtomicStep) : List Int :=
  steps.foldl applyAtomic client_sockets

/-- The clients that have joined and not yet left, after one more step: a registration adds
its descriptor, an `unregister` takes its descriptor away, a broadcast changes nothing. -/
def joinedStep (live : List Int) : AtomicStep → List Int
  | AtomicStep.register c => c :: live
  | AtomicStep.unregister fd _ _ => live.filter (fun c => c != fd)
  | AtomicStep.broadcast _ _ _ _ => live

/-- The clients that have joined and not yet left, after a sequence of steps. -/
def joinedNotLeft (live : List Int) (steps : List AtomicStep) : List Int :=
  steps.foldl joinedStep live

/-- Every registration of the sequence is of a non-zero descriptor that is not live at that
time, and happens when fewer than `MAXIMUM_NUMBER_OF_CLIENTS` clients are live. -/
def joinsFresh : List Int → List AtomicStep → Prop
  | _, [] => True
  | live, AtomicStep.register c :: steps =>
    c ≠ 0 ∧ c ∉ live ∧ live.length < MAXIMUM_NUMBER_OF_CLIENTS ∧
      joinsFresh (c :: live) steps
  | live, AtomicStep.unregister fd errno w :: steps =>
    joinsFresh (joinedStep live (AtomicStep.unregister fd errno w)) steps
  | live, AtomicStep.broadcast s m sz w :: steps =>
    joinsFresh (joinedStep live (AtomicStep.broadcast s m sz w)) steps

/-- Whether a sequence of atomic steps satisfies `joinsFresh` can be computed. -/
instance joinsFresh.instDecidable :
    (live : List Int) → (steps : List AtomicStep) → Decidable (joinsFresh live steps)
  | _, [] => isTrue trivial
  | live, AtomicStep.register c :: steps =>
    have := joinsFresh.instDecidable (c :: live) steps
    inferInstanceAs (Decidable (c ≠ 0 ∧ c ∉ live ∧
      live.length < MAXIMUM_NUMBER_OF_CLIENTS ∧ joinsFresh (c :: live) steps))
  | live, AtomicStep.unregister fd errno w :: steps =>
    joinsFresh.instDecidable (joinedStep live (AtomicStep.unregister fd errno w)) steps
  | live, AtomicStep.broadcast s m sz w :: steps =>
    joinsFresh.instDecidable (joinedStep live (AtomicStep.broadcast s m sz w)) steps

/-! ## A teardown on the duplex server -/

namespace Duplex

/-- The duplex server after the clients with the descriptors 4 and 5 have connected, in
that order: the state, and the client data of the two. -/
def twoRegistered : Option (State × ClientData × ClientData) :=
  (main.register initial 4).bind fun first =>
    (main.register first.1 5).map fun second => (second.1, first.2, second.2)

/-- The teardown of the first of the two clients (descriptor 4, identity 1) on the duplex
server: the state afterwards and the trace. -/
def firstTornDown : Option (State × List Event) :=
  twoRegistered.bind fun r =>
    TerminateClient r.1 r.2.1 0 (cstr "Tearing down client.\n") 0 (fun _ => 1)

end Duplex

/-! ## Example environments of the set-up -/

/-- A set-up in which every call succeeds (`socket` gives the descriptor 3). -/
def calmSetup : SetupEnv :=
  { errno := 0, socket_result := 3, inet_pton_result := 1, bind_result := 0,
    listen_result := 0 }

/-- A set-up in which `socket` fails, with `errno` 24 (`EMFILE`). -/
def socketFails : SetupEnv :=
  { errno := 24, socket_result := -1, inet_pton_result := 1, bind_result := 0,
    listen_result := 0 }

/-! ## The statements of `HandleClient` that use the buffer, one by one

The buffer is `static` (server.cpp, line 78): one array for all the threads that run
`HandleClient`, with no lock. Between two statements of one session another session can run
one of its own. -/

/-- The statement of line 80: `sprintf(buffer, ">>> Client %d joined <<<\n", socket_fd)`. -/
def HandleClient.formatJoined (buffer : List Nat) (socket_fd : Int) : List Nat :=
  sprintf buffer (joinedText socket_fd)

/-- The statement of line 85: `sprintf(buffer, "%d", socket_fd)`. -/
def HandleClient.formatIdentity (buffer : List Nat) (socket_fd : Int) : List Nat :=
  sprintf buffer (formatInt socket_fd)

/-- The statement of line 88: `write(socket_fd, buffer, strlen(buffer))`. -/
def HandleClient.writeIdentity (buffer : List Nat) (socket_fd : Int) : Event :=
  Event.write socket_fd (buffer.take (strlen buffer))

/-- The statement of line 98: `snprintf(buffer, BUFFER_SIZE, "Client %d: ", socket_fd)`. -/
def HandleClient.formatLabel (buffer : List Nat) (socket_fd : Int) : List Nat :=
  snprintf buffer BUFFER_SIZE (labelText socket_fd)

/-- The statement of line 99: `buffer_start_index = strlen(buffer)`. -/
def HandleClient.startIndex (buffer : List Nat) : Nat := strlen buffer

/-- What the `recv` of line 111 stores: the received bytes, from `buffer_start_index` on. -/
def HandleClient.recvStore (buffer : List Nat) (buffer_start_index : Nat) (r : RecvResult) :
    List Nat :=
  poke buffer buffer_start_index r.data

/-- An overlap of two joins on a server that has just started: the session of client 4 runs
the lines 80 and 85, the session of client 5 runs its line 80, then the session of client 4
runs its line 88. The result is the write of line 88 of client 4. -/
def overlappedHandshake : Event :=
  HandleClient.writeIdentity
    (HandleClient.formatJoined
      (HandleClient.formatIdentity (HandleClient.formatJoined initialState.buffer 4) 4) 5) 4

/-- A result of `recv` of 20 bytes, all the letter `x`. -/
def twentyBytes : RecvResult :=
  { bytes_received := 20, data := List.replicate 20 120 }

/-- An overlap of a join and a `recv`: the session of client 4 is in its loop; the session
of client 5 runs the lines 80 to 98; the `recv` of client 4 stores 20 bytes; then the
session of client 5 runs its line 99. The result is the `buffer_start_index` of client 5. -/
def overlappedStartIndex : Nat :=
  HandleClient.startIndex
    (HandleClient.recvStore
      (HandleClient.formatLabel
        (HandleClient.formatIdentity
          (HandleClient.formatJoined (HandleClient.joining freshState 4 calmEnv).1.state.buffer
            5) 5) 5)
      (HandleClient.joining freshState 4 calmEnv).2 twentyBytes)

/-! ## Theorems -/

theorem writesOf_append (xs ys : List Event) :
    writesOf (xs ++ ys) = writesOf xs ++ writesOf ys := by
  induction xs with
  | nil => rfl
  | cons e es ih => cases e <;> simp [writesOf, ih]

theorem filter_range_shift (p : Nat → Bool) (n i : Nat) :
    ((List.range (n + 1)).map (fun k => k + i)).filter p =
      (if p i then [i] else []) ++ ((List.range n).map (fun k => k + (i + 1))).filter p := by
  rw [List.range_succ_eq_map]
  simp only [List.map_cons, List.map_map, List.filter_cons, Nat.zero_add]
  have h : ((fun k => k + i) ∘ Nat.succ) = (fun k => k + (i + 1)) := by
    funext k; simp [Nat.succ_eq_add_one]; omega
  rw [h]
  split <;> simp

theorem dispatch_loop_writes (tbl : List Int) (s : Int) (m : List Nat) (sz : Nat)
    (w : Nat → Int) (n i : Nat) :
    writesOf (DispatchMessage.loop tbl s m sz w n i) =
      (((List.range n).map (fun k => k + i)).filter
        (fun j => decide (slot tbl j ≠ 0 ∧ slot tbl j ≠ s))).map
        (fun j => (slot tbl j, m.take sz)) := by
  induction n generalizing i with
  | zero => simp [DispatchMessage.loop, writesOf]
  | succ n ih =>
    rw [filter_range_shift]
    by_cases h : slot tbl i = 0 ∨ slot tbl i = s
    · have h2 : ¬ (slot tbl i ≠ 0 ∧ slot tbl i ≠ s) := by tauto
      simp only [DispatchMessage.loop, h, if_true, ih, h2, decide_False, Bool.false_eq_true,
        if_false, List.nil_append]
    · have h2 : (slot tbl i ≠ 0 ∧ slot tbl i ≠ s) := by tauto
      simp only [DispatchMessage.loop, h, if_false, h2, decide_True, if_true]
      simp only [writesOf, writesOf_append, ih, List.map_append, List.map_cons, List.map_nil,
        List.singleton_append, List.cons.injEq, true_and]
      split <;> simp [writesOf, h2]

theorem dispatch_writes (tbl : List Int) (s : Int) (m : List Nat) (sz : Nat)
    (w : Nat → Int) :
    writesOf (DispatchMessage tbl s m sz w).2 =
      (recipientSlots tbl s).map (fun i => (slot tbl i, m.take sz)) := by
  have h := dispatch_loop_writes tbl s m sz w MAXIMUM_NUMBER_OF_CLIENTS 0
  simp only [Nat.add_zero, List.map_id_fun, id] at h
  simpa [DispatchMessage, recipientSlots] using h

theorem mem_recipientSlots (tbl : List Int) (s : Int) (i : Nat) :
    i ∈ recipientSlots tbl s ↔
      i < MAXIMUM_NUMBER_OF_CLIENTS ∧ slot tbl i ≠ 0 ∧ slot tbl i ≠ s := by
  simp [recipientSlots]

theorem recipientSlots_sorted (tbl : List Int) (s : Int) :
    (recipientSlots tbl s).Sorted (fun a b => a < b) := by
  unfold recipientSlots
  exact List.Sorted.filter _ (List.sorted_lt_range _)

/-- C1. `DispatchMessage(s, message, size)` issues its writes at exactly the slots that are
live (non-zero) and do not hold the sender `s`, one write of the first `size` bytes of
`message` per such slot, in ascending slot order (whatever the results of the writes); so no
write goes to `s`, and every live slot other than the sender's is written to. -/
theorem C1_dispatch_writes_every_other_client (client_sockets : List Int) (s : Int)
    (message : List Nat) (size : Nat) (write_result : Nat → Int) :
    writesOf (DispatchMessage client_sockets s message size write_result).2 =
        (recipientSlots client_sockets s).map
          (fun i => (slot client_sockets i, message.take size)) ∧
      (recipientSlots client_sockets s).Sorted (fun a b => a < b) ∧
      (∀ i, i ∈ recipientSlots client_sockets s ↔
        i < MAXIMUM_NUMBER_OF_CLIENTS ∧ slot client_sockets i ≠ 0 ∧
          slot client_sockets i ≠ s) ∧
      (∀ bytes, (s, bytes) ∉
        writesOf (DispatchMessage client_sockets s message size write_result).2) ∧
      (∀ i, i < MAXIMUM_NUMBER_OF_CLIENTS → slot client_sockets i ≠ 0 →
        slot client_sockets i ≠ s →
        (slot client_sockets i, message.take size) ∈
          writesOf (DispatchMessage client_sockets s message size write_result).2) := by
  refine ⟨dispatch_writes _ _ _ _ _, recipientSlots_sorted _ _, mem_recipientSlots _ _, ?_, ?_⟩
  · intro bytes hmem
    rw [dispatch_writes, List.mem_map] at hmem
    obtain ⟨i, hi, heq⟩ := hmem
    rw [mem_recipientSlots] at hi
    exact hi.2.2 (congrArg Prod.fst heq)
  · intro i hi h0 hs
    rw [dispatch_writes, List.mem_map]
    exact ⟨i, (mem_recipientSlots _ _ _).2 ⟨hi, h0, hs⟩, rfl⟩

/-! ### The table loops -/

theorem slot_append_length (pre : List Int) (x : Int) (xs : List Int) :
    slot (pre ++ x :: xs) pre.length = x := by
  have h : (pre ++ x :: xs)[pre.length]? = some x := by
    rw [List.getElem?_append_right (Nat.le_refl _)]
    simp
  simp [slot, List.getD_eq_getElem?_getD, h]

theorem set_append_length (pre : List Int) (x c : Int) (xs : List Int) :
    (pre ++ x :: xs).set pre.length c = pre ++ c :: xs := by
  simp [List.set_append]

theorem registerLoop_eq (c : Int) (xs : List Int) :
    ∀ pre : List Int,
      main.registerLoop c xs.length pre.length (pre ++ xs) = pre ++ fillFirst c xs := by
  induction xs with
  | nil => intro pre; simp [main.registerLoop, fillFirst]
  | cons x xs ih =>
    intro pre
    simp only [List.length_cons, main.registerLoop, slot_append_length, fillFirst]
    by_cases hx : x = 0
    · simp only [hx, if_true]
      exact set_append_length pre 0 c xs
    · simp only [hx, if_false]
      have h := ih (pre ++ [x])
      simp only [List.length_append, List.length_singleton, List.append_assoc,
        List.singleton_append] at h
      exact h

theorem register_eq (tbl : List Int) (c : Int)
    (hlen : tbl.length = MAXIMUM_NUMBER_OF_CLIENTS) :
    main.register tbl c = fillFirst c tbl := by
  have h := registerLoop_eq c tbl []
  simp only [List.length_nil, List.nil_append] at h
  rw [main.register, ← hlen]
  exact h

theorem removeLoop_eq (fd : Int) (xs : List Int) :
    ∀ pre : List Int,
      TerminateClient.loop fd xs.length pre.length (pre ++ xs) =
        (pre ++ zeroFirst fd xs, if fd ∈ xs then [Event.close fd] else []) := by
  induction xs with
  | nil => intro pre; simp [TerminateClient.loop, zeroFirst]
  | cons x xs ih =>
    intro pre
    simp only [List.length_cons, TerminateClient.loop, slot_append_length, zeroFirst]
    by_cases hx : x = fd
    · simp only [hx, if_true, List.mem_cons, true_or]
      rw [set_append_length]
    · simp only [hx, if_false]
      have h := ih (pre ++ [x])
      simp only [List.length_append, List.length_singleton, List.append_assoc,
        List.singleton_append] at h
      rw [h]
      have hx2 : ¬ fd = x := fun e => hx e.symm
      simp [hx2]

theorem remove_eq (tbl : List Int) (fd : Int)
    (hlen : tbl.length = MAXIMUM_NUMBER_OF_CLIENTS) :
    TerminateClient.remove tbl fd =
      (zeroFirst fd tbl, if fd ∈ tbl then [Event.close fd] else []) := by
  have h := removeLoop_eq fd tbl []
  simp only [List.length_nil, List.nil_append] at h
  rw [TerminateClient.remove, ← hlen]
  exact h

theorem fillFirst_length (c : Int) (xs : List Int) : (fillFirst c xs).length = xs.length := by
  induction xs with
  | nil => rfl
  | cons x xs ih => by_cases hx : x = 0 <;> simp [fillFirst, hx, ih]

theorem zeroFirst_length (fd : Int) (xs : List Int) :
    (zeroFirst fd xs).length = xs.length := by
  induction xs with
  | nil => rfl
  | cons x xs ih => by_cases hx : x = fd <;> simp [zeroFirst, hx, ih]

theorem fillFirst_full (c : Int) (xs : List Int) (h : ∀ x ∈ xs, x ≠ 0) :
    fillFirst c xs = xs := by
  induction xs with
  | nil => rfl
  | cons x xs ih =>
    have hx : x ≠ 0 := h x (List.mem_cons_self _ _)
    simp [fillFirst, hx, ih (fun y hy => h y (List.mem_cons_of_mem _ hy))]

theorem zeroFirst_of_not_mem (fd : Int) (xs : List Int) (h : fd ∉ xs) :
    zeroFirst fd xs = xs := by
  induction xs with
  | nil => rfl
  | cons x xs ih =>
    have hx : x ≠ fd := fun e => h (e ▸ List.mem_cons_self _ _)
    simp [zeroFirst, hx, ih (fun hm => h (List.mem_cons_of_mem _ hm))]

theorem not_mem_zeroFirst (fd : Int) (xs : List Int) (hfd : fd ≠ 0)
    (h : xs.count fd ≤ 1) : fd ∉ zeroFirst fd xs := by
  induction xs with
  | nil => simp [zeroFirst]
  | cons x xs ih =>
    by_cases hx : x = fd
    · subst hx
      simp only [zeroFirst, if_true, List.mem_cons, not_or]
      refine ⟨hfd, ?_⟩
      rw [List.count_cons_self] at h
      exact List.count_eq_zero.1 (by omega)
    · simp only [zeroFirst, hx, if_false, List.mem_cons, not_or]
      refine ⟨fun e => hx e.symm, ih ?_⟩
      rw [List.count_cons_of_ne (fun e => hx e.symm)] at h
      exact h

theorem mem_zeroFirst (fd c : Int) (xs : List Int) (hc : c ∈ xs) (hne : c ≠ fd) :
    c ∈ zeroFirst fd xs := by
  induction xs with
  | nil => simp at hc
  | cons x xs ih =>
    by_cases hx : x = fd
    · simp only [zeroFirst, hx, if_true, List.mem_cons]
      rcases List.mem_cons.1 hc with h | h
      · exact absurd (h.trans hx) hne
      · exact Or.inr h
    · simp only [zeroFirst, hx, if_false, List.mem_cons]
      rcases List.mem_cons.1 hc with h | h
      · exact Or.inl h
      · exact Or.inr (ih h)

theorem liveEntries_zeroFirst (fd : Int) (xs : List Int) :
    liveEntries (zeroFirst fd xs) = (liveEntries xs).erase fd ∨
      (fd = 0 ∧ zeroFirst fd xs = xs) := by
  by_cases hfd : fd = 0
  · right
    refine ⟨hfd, ?_⟩
    subst hfd
    induction xs with
    | nil => rfl
    | cons x xs ih =>
      by_cases hx : x = 0
      · simp [zeroFirst, hx]
      · simp [zeroFirst, hx, ih]
  · left
    induction xs with
    | nil => simp [zeroFirst, liveEntries]
    | cons x xs ih =>
      by_cases hx : x = fd
      · subst hx
        simp [zeroFirst, liveEntries, hfd]
      · by_cases hx0 : x = 0
        · subst hx0
          simp only [zeroFirst, hx, if_false]
          simpa [liveEntries] using ih
        · simp only [zeroFirst, hx, if_false]
          simp only [liveEntries] at ih
          simp [liveEntries, hx0, List.erase_cons_tail, hx, ih]

theorem liveEntries_zeroFirst_nodup (fd : Int) (xs : List Int)
    (h : (liveEntries xs).Nodup) : (liveEntries (zeroFirst fd xs)).Nodup := by
  rcases liveEntries_zeroFirst fd xs with h1 | ⟨_, h2⟩
  · rw [h1]; exact h.erase fd
  · rw [h2]; exact h

theorem liveEntries_fillFirst_nodup (c : Int) (xs : List Int) (hc : c ∉ xs)
    (h : (liveEntries xs).Nodup) : (liveEntries (fillFirst c xs)).Nodup := by
  induction xs with
  | nil => simpa [fillFirst] using h
  | cons x xs ih =>
    have hcx : c ≠ x := fun e => hc (e ▸ List.mem_cons_self _ _)
    have hcxs : c ∉ xs := fun hm => hc (List.mem_cons_of_mem _ hm)
    by_cases hx : x = 0
    · subst hx
      simp only [fillFirst, if_true]
      have hl : liveEntries (0 :: xs) = liveEntries xs := by simp [liveEntries]
      rw [hl] at h
      have : liveEntries (c :: xs) = c :: liveEntries xs := by
        simp [liveEntries, hcx]
      rw [this, List.nodup_cons]
      exact ⟨fun hm => hcxs (List.mem_of_mem_filter hm), h⟩
    · simp only [fillFirst, hx, if_false]
      have hl : ∀ ys, liveEntries (x :: ys) = x :: liveEntries ys := by
        intro ys; simp [liveEntries, hx]
      rw [hl] at h ⊢
      rw [List.nodup_cons] at h ⊢
      refine ⟨fun hm => h.1 ?_, ih hcxs h.2⟩
      have hm2 : x ∈ fillFirst c xs := List.mem_of_mem_filter hm
      have hx3 : x ∈ xs := by
        clear ih h hm hl
        induction xs with
        | nil => simp [fillFirst] at hm2
        | cons y ys ih2 =>
          by_cases hy : y = 0
          · simp only [fillFirst, hy, if_true, List.mem_cons] at hm2
            rcases hm2 with e | e
            · exact absurd e.symm hcx
            · exact List.mem_cons_of_mem _ e
          · simp only [fillFirst, hy, if_false, List.mem_cons] at hm2
            rcases hm2 with e | e
            · exact e ▸ List.mem_cons_self _ _
            · have hc2 : c ∉ x :: ys := by
                intro hm3
                rcases List.mem_cons.1 hm3 with e2 | e2
                · exact hcx e2
                · exact hcxs (List.mem_cons_of_mem _ e2)
              exact List.mem_cons_of_mem _
                (ih2 hc2 (fun hm3 => hcxs (List.mem_cons_of_mem _ hm3)) e)
      simp [liveEntries, hx3, hx]

/-! ### Formatting and C strings -/

theorem toDigitsFuel_mem (fuel : Nat) :
    ∀ (n : Nat) (acc : List Nat) (b : Nat), b ∈ toDigitsFuel fuel n acc →
      b ∈ acc ∨ (48 ≤ b ∧ b ≤ 57) := by
  induction fuel with
  | zero => intro n acc b hb; exact Or.inl hb
  | succ fuel ih =>
    intro n acc b hb
    have hd : 48 ≤ 48 + n % 10 ∧ 48 + n % 10 ≤ 57 := by omega
    simp only [toDigitsFuel] at hb
    split at hb
    · rcases List.mem_cons.1 hb with e | e
      · exact Or.inr (e ▸ hd)
      · exact Or.inl e
    · rcases ih _ _ _ hb with e | e
      · rcases List.mem_cons.1 e with e2 | e2
        · exact Or.inr (e2 ▸ hd)
        · exact Or.inl e2
      · exact Or.inr e

theorem toDigitsFuel_append (fuel : Nat) :
    ∀ (n : Nat) (acc : List Nat),
      toDigitsFuel fuel n acc = toDigitsFuel fuel n [] ++ acc := by
  induction fuel with
  | zero => intro n acc; rfl
  | succ fuel ih =>
    intro n acc
    simp only [toDigitsFuel]
    split
    · rfl
    · rw [ih _ ((48 + n % 10) :: acc), ih _ [48 + n % 10]]
      simp

theorem toDigitsFuel_ne_nil (fuel n : Nat) : toDigitsFuel (fuel + 1) n [] ≠ [] := by
  simp only [toDigitsFuel]
  split
  · simp
  · rw [toDigitsFuel_append]; simp

theorem formatNat_digits (n : Nat) : ∀ b ∈ formatNat n, isDigit b = true := by
  intro b hb
  rcases toDigitsFuel_mem _ _ _ _ hb with e | e
  · simp at e
  · simp [isDigit, e.1, e.2]

theorem formatNat_ne_nil (n : Nat) : formatNat n ≠ [] := toDigitsFuel_ne_nil n n

theorem atoiDigits_append (ds : List Nat) (h : ∀ b ∈ ds, isDigit b = true) :
    ∀ (a : Nat) (rest : List Nat),
      atoiDigits a (ds ++ rest) = atoiDigits (atoiDigits a ds) rest := by
  induction ds with
  | nil => intro a rest; rfl
  | cons d ds ih =>
    intro a rest
    have hd : isDigit d = true := h d (List.mem_cons_self _ _)
    simp only [List.cons_append, atoiDigits, hd, if_true]
    exact ih (fun b hb => h b (List.mem_cons_of_mem _ hb)) _ _

theorem atoiDigits_stop (a : Nat) (rest : List Nat)
    (h : ∀ b, rest.head? = some b → isDigit b = false) : atoiDigits a rest = a := by
  cases rest with
  | nil => rfl
  | cons b bs => simp [atoiDigits, h b rfl]

theorem atoiDigits_toDigitsFuel (fuel : Nat) :
    ∀ n : Nat, n < fuel → atoiDigits 0 (toDigitsFuel fuel n []) = n := by
  induction fuel with
  | zero => intro n hn; omega
  | succ fuel ih =>
    intro n hn
    have hd : isDigit (48 + n % 10) = true := by
      simp only [isDigit, Bool.and_eq_true, decide_eq_true_eq]; omega
    simp only [toDigitsFuel]
    split
    · rename_i h0
      simp only [atoiDigits, hd, if_true]
      omega
    · rename_i h0
      rw [toDigitsFuel_append]
      rw [atoiDigits_append _ (fun b hb => by
        rcases toDigitsFuel_mem _ _ _ _ hb with e | e
        · simp at e
        · simp [isDigit, e.1, e.2])]
      rw [ih (n / 10) (by omega)]
      simp only [atoiDigits, hd, if_true]
      omega

theorem atoiDigits_formatNat (n : Nat) (rest : List Nat)
    (h : ∀ b, rest.head? = some b → isDigit b = false) :
    atoiDigits 0 (formatNat n ++ rest) = n := by
  rw [atoiDigits_append _ (formatNat_digits n), atoiDigits_stop _ _ h]
  exact atoiDigits_toDigitsFuel (n + 1) n (Nat.lt_succ_self n)

theorem isDigit_not_space (b : Nat) (h : isDigit b = true) :
    isSpace b = false ∧ b ≠ 45 ∧ b ≠ 43 := by
  simp only [isDigit, Bool.and_eq_true, decide_eq_true_eq] at h
  refine ⟨?_, by omega, by omega⟩
  simp only [isSpace, Bool.or_eq_false_iff, Bool.and_eq_false_iff, beq_eq_false_iff_ne,
    decide_eq_false_iff_not]
  omega

theorem atoiValue_digits_cons (d : Nat) (ds : List Nat) (hd : isDigit d = true) :
    atoiValue (d :: ds) = (atoiDigits 0 (d :: ds) : Int) := by
  obtain ⟨h1, h2, h3⟩ := isDigit_not_space d hd
  simp [atoiValue, List.dropWhile, h1, h2, h3]

theorem atoiValue_formatInt (v : Int) (rest : List Nat)
    (h : ∀ b, rest.head? = some b → isDigit b = false) :
    atoiValue (formatInt v ++ rest) = v := by
  by_cases hv : v < 0
  · have hs : isSpace 45 = false := by decide
    simp only [formatInt, hv, if_true, List.cons_append, atoiValue, List.dropWhile, hs]
    rw [atoiDigits_formatNat _ _ h]
    omega
  · simp only [formatInt, hv, if_false]
    have hne := formatNat_ne_nil v.natAbs
    have hdig := formatNat_digits v.natAbs
    have key := atoiDigits_formatNat v.natAbs rest h
    cases hf : formatNat v.natAbs with
    | nil => exact absurd hf hne
    | cons d ds =>
      rw [hf] at key hdig
      rw [List.cons_append,
        atoiValue_digits_cons d (ds ++ rest) (hdig d (List.mem_cons_self _ _))]
      rw [List.cons_append] at key
      rw [key]
      omega

theorem atoi_formatInt (v : Int) (rest : List Nat) (hmin : INT_MIN ≤ v) (hmax : v ≤ INT_MAX)
    (h : ∀ b, rest.head? = some b → isDigit b = false) :
    atoi (formatInt v ++ rest) = v := by
  unfold atoi
  rw [atoiValue_formatInt v rest h]
  simp only [INT_MIN, INT_MAX] at hmin hmax
  have h1 : ¬ v < LONG_MIN := by simp only [LONG_MIN]; omega
  have h2 : ¬ LONG_MAX < v := by simp only [LONG_MAX]; omega
  simp only [clampLong, h1, h2, if_false, toInt32]
  omega

theorem atoi_out_of_range : atoi (cstr "2147483648") = -2147483648 := by
  decide

theorem formatInt_mem (v : Int) : ∀ b ∈ formatInt v, b = 45 ∨ isDigit b = true := by
  intro b hb
  unfold formatInt at hb
  split at hb
  · rcases List.mem_cons.1 hb with e | e
    · exact Or.inl e
    · exact Or.inr (formatNat_digits _ b e)
  · exact Or.inr (formatNat_digits _ b hb)

theorem formatInt_ne_zero (v : Int) : ∀ b ∈ formatInt v, b ≠ 0 := by
  intro b hb
  rcases formatInt_mem v b hb with e | e
  · omega
  · simp only [isDigit, Bool.and_eq_true, decide_eq_true_eq] at e
    omega

theorem takeWhile_text (t rest : List Nat) (h : ∀ b ∈ t, b ≠ 0) :
    (t ++ 0 :: rest).takeWhile (fun b => b != 0) = t := by
  induction t with
  | nil => simp [List.takeWhile]
  | cons b bs ih =>
    have hb : (b != 0) = true := by
      simpa using h b (List.mem_cons_self _ _)
    rw [List.cons_append, List.takeWhile_cons, hb]
    simp [ih (fun c hc => h c (List.mem_cons_of_mem _ hc))]

theorem strlen_text (t rest : List Nat) (h : ∀ b ∈ t, b ≠ 0) :
    strlen (t ++ 0 :: rest) = t.length := by
  rw [strlen, takeWhile_text t rest h]

theorem cstring_text (t rest : List Nat) (h : ∀ b ∈ t, b ≠ 0) :
    cstring (t ++ 0 :: rest) = t := by
  rw [cstring, takeWhile_text t rest h]

theorem sprintf_eq (buf text : List Nat) :
    sprintf buf text = text ++ 0 :: buf.drop (text.length + 1) := by
  simp [sprintf, poke]

theorem take_strlen_sprintf (buf text : List Nat) (h : ∀ b ∈ text, b ≠ 0) :
    (sprintf buf text).take (strlen (sprintf buf text)) = text := by
  rw [sprintf_eq, strlen_text _ _ h]
  simp

theorem cstring_sprintf (buf text : List Nat) (h : ∀ b ∈ text, b ≠ 0) :
    cstring (sprintf buf text) = text := by
  rw [sprintf_eq, cstring_text _ _ h]

theorem strlen_sprintf (buf text : List Nat) (h : ∀ b ∈ text, b ≠ 0) :
    strlen (sprintf buf text) = text.length := by
  rw [sprintf_eq, strlen_text _ _ h]

theorem cstr_literals_ne_zero :
    (∀ b ∈ cstr ">>> Client ", b ≠ 0) ∧ (∀ b ∈ cstr " left <<<\n", b ≠ 0) ∧
      (∀ b ∈ cstr " joined <<<\n", b ≠ 0) ∧ (∀ b ∈ cstr "Client ", b ≠ 0) ∧
      (∀ b ∈ cstr ": ", b ≠ 0) := by
  decide

theorem leftText_ne_zero (fd : Int) : ∀ b ∈ leftText fd, b ≠ 0 := by
  intro b hb
  simp only [leftText, List.mem_append] at hb
  rcases hb with (h | h) | h
  · exact cstr_literals_ne_zero.1 b h
  · exact formatInt_ne_zero fd b h
  · exact cstr_literals_ne_zero.2.1 b h

theorem joinedText_ne_zero (fd : Int) : ∀ b ∈ joinedText fd, b ≠ 0 := by
  intro b hb
  simp only [joinedText, List.mem_append] at hb
  rcases hb with (h | h) | h
  · exact cstr_literals_ne_zero.1 b h
  · exact formatInt_ne_zero fd b h
  · exact cstr_literals_ne_zero.2.2.1 b h

theorem labelText_ne_zero (fd : Int) : ∀ b ∈ labelText fd, b ≠ 0 := by
  intro b hb
  simp only [labelText, List.mem_append] at hb
  rcases hb with (h | h) | h
  · exact cstr_literals_ne_zero.2.2.2.1 b h
  · exact formatInt_ne_zero fd b h
  · exact cstr_literals_ne_zero.2.2.2.2 b h

/-! ### Registration -/

theorem fullTable_length : fullTable.length = MAXIMUM_NUMBER_OF_CLIENTS := by
  simp [fullTable]

theorem fullTable_live : ∀ c ∈ fullTable, c ≠ 0 := by
  intro c hc
  simp only [fullTable, List.mem_map, List.mem_range] at hc
  obtain ⟨i, _, rfl⟩ := hc
  have : Int.ofNat i = (i : Int) := rfl
  omega

/-- C2 (as the code has it). When the table holds `MAXIMUM_NUMBER_OF_CLIENTS` live entries,
the registration of one more accepted connection stores nothing and leaves every entry of
the table as it was; the iteration of the accept loop reports no failure for it: its trace
and its outcome are those of the same iteration on an empty table. -/
theorem C2_full_table_left_unchanged (client_sockets : List Int)
    (success errno client_socket status : Int)
    (hlen : client_sockets.length = MAXIMUM_NUMBER_OF_CLIENTS)
    (hfull : ∀ c ∈ client_sockets, c ≠ 0) :
    main.register client_sockets client_socket = client_sockets ∧
      (main.iteration success errno client_sockets client_socket status).client_sockets =
        client_sockets ∧
      (main.iteration success errno client_sockets client_socket status).trace =
        (main.iteration success errno emptyTable client_socket status).trace ∧
      (main.iteration success errno client_sockets client_socket status).goes_on =
        (main.iteration success errno emptyTable client_socket status).goes_on := by
  have hreg : main.register client_sockets client_socket = client_sockets := by
    rw [register_eq _ _ hlen, fillFirst_full _ _ hfull]
  refine ⟨hreg, ?_, ?_, ?_⟩
  · unfold main.iteration
    split
    · rfl
    · split <;> exact hreg
  · unfold main.iteration
    split
    · rfl
    · split <;> rfl
  · unfold main.iteration
    split
    · rfl
    · split <;> rfl

/-- C2, witness: the full table 4, 5, ..., 258 and one more accepted descriptor, 300. -/
theorem C2_full_table_left_unchanged_witness :
    main.register fullTable 300 = fullTable ∧
      (main.iteration 0 0 fullTable 300 0).client_sockets = fullTable ∧
      (main.iteration 0 0 fullTable 300 0).trace =
        (main.iteration 0 0 emptyTable 300 0).trace ∧
      (main.iteration 0 0 fullTable 300 0).goes_on =
        (main.iteration 0 0 emptyTable 300 0).goes_on :=
  C2_full_table_left_unchanged fullTable 0 0 300 0 fullTable_length fullTable_live

/-- C2, counterexample: on the full table 4, 5, ..., 258 the accept loop registers the
accepted descriptor 300 without any failure: the loop goes on, nothing calls `exit`, and
the session thread for 300 is created. -/
theorem C2_no_capacity_failure :
    fullTable.length = MAXIMUM_NUMBER_OF_CLIENTS ∧ (∀ c ∈ fullTable, c ≠ 0) ∧
      (main.iteration 0 0 fullTable 300 0).goes_on = true ∧
      (main.iteration 0 0 fullTable 300 0).trace =
        [Event.printf (cstr "[Info]: A client connected!\n"), Event.pthread_create 300] :=
  ⟨fullTable_length, fullTable_live, by decide, by decide⟩

theorem fillFirst_append (c : Int) (pre : List Int) (m : Nat) (hpre : ∀ x ∈ pre, x ≠ 0) :
    fillFirst c (pre ++ List.replicate (m + 1) 0) = pre ++ c :: List.replicate m 0 := by
  induction pre with
  | nil => simp [fillFirst, List.replicate_succ]
  | cons x xs ih =>
    have hx : x ≠ 0 := hpre x (List.mem_cons_self _ _)
    simp [fillFirst, hx, ih (fun y hy => hpre y (List.mem_cons_of_mem _ hy))]

theorem runSteps_cons (tbl : List Int) (step : TableStep) (steps : List TableStep) :
    runSteps tbl (step :: steps) = runSteps (applyStep tbl step) steps := rfl

theorem runSteps_invariant (steps : List TableStep) :
    ∀ tbl : List Int, tbl.length = MAXIMUM_NUMBER_OF_CLIENTS → (liveEntries tbl).Nodup →
      acceptsFresh tbl steps →
      (runSteps tbl steps).length = MAXIMUM_NUMBER_OF_CLIENTS ∧
        (liveEntries (runSteps tbl steps)).Nodup := by
  induction steps with
  | nil => intro tbl hlen hnd _; exact ⟨hlen, hnd⟩
  | cons step steps ih =>
    intro tbl hlen hnd hfresh
    rw [runSteps_cons]
    cases step with
    | register c =>
      simp only [acceptsFresh] at hfresh
      obtain ⟨_, _, hcmem, hrest⟩ := hfresh
      simp only [applyStep]
      rw [register_eq _ _ hlen] at hrest ⊢
      exact ih _ (by rw [fillFirst_length, hlen])
        (liveEntries_fillFirst_nodup c tbl hcmem hnd) hrest
    | terminate fd =>
      simp only [acceptsFresh] at hfresh
      simp only [applyStep]
      rw [remove_eq _ _ hlen] at hfresh ⊢
      exact ih _ (by simp only [zeroFirst_length, hlen])
        (liveEntries_zeroFirst_nodup fd tbl hnd) hfresh

theorem emptyTable_length : emptyTable.length = MAXIMUM_NUMBER_OF_CLIENTS := by
  simp [emptyTable]

theorem liveEntries_emptyTable : liveEntries emptyTable = [] := by
  simp [liveEntries, emptyTable]

theorem liveEntries_filled (cs : List Int) (k : Nat) (h : ∀ c ∈ cs, c ≠ 0) :
    liveEntries (cs ++ List.replicate k 0) = cs := by
  simp only [liveEntries, List.filter_append]
  have h1 : cs.filter (fun c => c != 0) = cs := by
    rw [List.filter_eq_self]
    intro c hc
    simpa using h c hc
  have h2 : (List.replicate k (0 : Int)).filter (fun c => c != 0) = [] := by
    rw [List.filter_eq_nil_iff]
    intro c hc
    simp [(List.mem_replicate.1 hc).2]
  rw [h1, h2, List.append_nil]

/-! ### The start of a session -/

theorem dispatch_table (tbl : List Int) (s : Int) (m : List Nat) (sz : Nat)
    (w : Nat → Int) : (DispatchMessage tbl s m sz w).1 = tbl := rfl

theorem joining_trace (st : ServerState) (fd : Int) (env : SessionEnv) :
    (HandleClient.joining st fd env).1.trace =
      Event.printf (joinedText fd) ::
        (DispatchMessage st.client_sockets fd (sprintf st.buffer (joinedText fd))
          (joinedText fd).length env.joined_writes).2 ++
        Event.write fd (formatInt fd) ::
          (if env.id_write = -1 then
            (TerminateClient st.client_sockets fd 0 (cstr "Couldn't write to socket.")
              env.errno env.left_writes).2
          else [Event.printf (cstr "[Info]: Sent ID to the client.\n")]) := by
  unfold HandleClient.joining
  simp only [cstring_sprintf _ _ (joinedText_ne_zero fd),
    strlen_sprintf _ _ (joinedText_ne_zero fd),
    take_strlen_sprintf _ _ (formatInt_ne_zero fd), dispatch_table]
  split <;> simp

theorem iteration_table (success errno status c : Int) (tbl : List Int) (hc : c ≠ -1) :
    (main.iteration success errno tbl c status).client_sockets = main.register tbl c := by
  unfold main.iteration
  simp only [hc, if_false]
  split <;> rfl

theorem closesOf_append (xs ys : List Event) :
    closesOf (xs ++ ys) = closesOf xs ++ closesOf ys := by
  induction xs with
  | nil => rfl
  | cons e es ih => cases e <;> simp [closesOf, ih]

theorem dispatch_loop_events (tbl : List Int) (s : Int) (m : List Nat) (sz : Nat)
    (w : Nat → Int) (n : Nat) :
    ∀ i : Nat, ∀ e ∈ DispatchMessage.loop tbl s m sz w n i,
      (∃ fd bytes, e = Event.write fd bytes) ∨ (∃ text, e = Event.printf text) := by
  induction n with
  | zero => intro i e he; simp [DispatchMessage.loop] at he
  | succ n ih =>
    intro i e he
    simp only [DispatchMessage.loop] at he
    split at he
    · exact ih _ e he
    · rcases List.mem_cons.1 he with h | h
      · exact Or.inl ⟨_, _, h⟩
      · rcases List.mem_append.1 h with h2 | h2
        · split at h2
          · exact Or.inr ⟨_, List.mem_singleton.1 h2⟩
          · simp at h2
        · exact ih _ e h2

theorem dispatch_closes (tbl : List Int) (s : Int) (m : List Nat) (sz : Nat)
    (w : Nat → Int) : closesOf (DispatchMessage tbl s m sz w).2 = [] := by
  have h := dispatch_loop_events tbl s m sz w MAXIMUM_NUMBER_OF_CLIENTS 0
  have key : ∀ es : List Event,
      (∀ e ∈ es, (∃ fd bytes, e = Event.write fd bytes) ∨ (∃ text, e = Event.printf text)) →
        closesOf es = [] := by
    intro es
    induction es with
    | nil => intro _; rfl
    | cons e es ih =>
      intro hes
      have ht := ih (fun x hx => hes x (List.mem_cons_of_mem _ hx))
      rcases hes e (List.mem_cons_self _ _) with ⟨fd, b, rfl⟩ | ⟨t, rfl⟩
      · simpa [closesOf] using ht
      · simpa [closesOf] using ht
  exact key _ h

theorem slot_mem (tbl : List Int) (i : Nat) (h : slot tbl i ≠ 0) : slot tbl i ∈ tbl := by
  unfold slot at h ⊢
  rw [List.getD_eq_getElem?_getD] at h ⊢
  cases hi : tbl[i]? with
  | none => simp [hi] at h
  | some v =>
    simp only [Option.getD_some]
    exact List.getElem?_mem hi

theorem exists_slot (tbl : List Int) (c : Int) (hc : c ∈ tbl) :
    ∃ i, i < tbl.length ∧ slot tbl i = c := by
  obtain ⟨i, hi, e⟩ := List.mem_iff_getElem.1 hc
  refine ⟨i, hi, ?_⟩
  unfold slot
  rw [List.getD_eq_getElem?_getD, List.getElem?_eq_getElem hi]
  simpa using e

theorem no_write_to_absent (tbl : List Int) (A s : Int) (m : List Nat) (sz : Nat)
    (w : Nat → Int) (hA0 : A ≠ 0) (hA : A ∉ tbl) (bytes : List Nat) :
    (A, bytes) ∉ writesOf (DispatchMessage tbl s m sz w).2 := by
  intro hmem
  rw [dispatch_writes, List.mem_map] at hmem
  obtain ⟨i, hi, heq⟩ := hmem
  have e : slot tbl i = A := congrArg Prod.fst heq
  exact hA (e ▸ slot_mem tbl i (e ▸ hA0))

theorem take_sprintf (buf text : List Nat) :
    (sprintf buf text).take text.length = text := by
  rw [sprintf_eq]
  simp

theorem terminate_eq (tbl : List Int) (fd code errno : Int) (message : List Nat)
    (w : Nat → Int) (hlen : tbl.length = MAXIMUM_NUMBER_OF_CLIENTS) :
    TerminateClient tbl fd code message errno w =
      (zeroFirst fd tbl,
        (if fd ∈ tbl then [Event.close fd] else []) ++
          (DispatchMessage (zeroFirst fd tbl) fd
            (sprintf (List.replicate 255 0) (leftText fd)) (leftText fd).length w).2 ++
          [Event.printf (exitText errno message), Event.pthread_exit code]) := by
  unfold TerminateClient
  simp only [remove_eq _ _ hlen, strlen_sprintf _ _ (leftText_ne_zero fd), dispatch_table]

theorem count_le_one_of_live_nodup (tbl : List Int) (fd : Int) (hfd : fd ≠ 0)
    (h : (liveEntries tbl).Nodup) : tbl.count fd ≤ 1 := by
  have e : (liveEntries tbl).count fd = tbl.count fd := by
    unfold liveEntries
    rw [List.count_filter]
    simpa using hfd
  rw [← e]
  exact List.nodup_iff_count_le_one.1 h fd

theorem terminate_writes (tbl : List Int) (fd code errno : Int) (message : List Nat)
    (w : Nat → Int) (hlen : tbl.length = MAXIMUM_NUMBER_OF_CLIENTS) :
    writesOf (TerminateClient tbl fd code message errno w).2 =
      (recipientSlots (zeroFirst fd tbl) fd).map
        (fun i => (slot (zeroFirst fd tbl) i, leftText fd)) := by
  rw [terminate_eq _ _ _ _ _ _ hlen]
  simp only [writesOf_append, dispatch_writes, take_sprintf]
  have h1 : writesOf (if fd ∈ tbl then [Event.close fd] else []) = [] := by
    split <;> rfl
  rw [h1]
  simp [writesOf]

/-- C5. In a table whose live entries are pairwise distinct, `TerminateClient(A, ...)` for a
registered client `A` writes the notification `">>> Client <A> left <<<"`, followed by a
newline character, at every live slot of the table it leaves, hence to every other live
client and not to `A`; it closes `A`; afterwards no slot holds `A` (the other live entries
stay), and no later `DispatchMessage`, whatever its sender, writes to `A`. -/
theorem C5_left_notification_and_removal (client_sockets : List Int) (A code errno : Int)
    (message : List Nat) (write_result : Nat → Int)
    (hlen : client_sockets.length = MAXIMUM_NUMBER_OF_CLIENTS)
    (hnd : (liveEntries client_sockets).Nodup) (hA : A ∈ client_sockets) (hA0 : A ≠ 0) :
    writesOf (TerminateClient client_sockets A code message errno write_result).2 =
        (recipientSlots
          (TerminateClient client_sockets A code message errno write_result).1 A).map
          (fun i =>
            (slot (TerminateClient client_sockets A code message errno write_result).1 i,
              leftText A)) ∧
      leftText A = cstr ">>> Client " ++ formatInt A ++ cstr " left <<<" ++ [10] ∧
      (∀ c ∈ client_sockets, c ≠ 0 → c ≠ A →
        (c, leftText A) ∈
          writesOf (TerminateClient client_sockets A code message errno write_result).2) ∧
      (∀ bytes, (A, bytes) ∉
        writesOf (TerminateClient client_sockets A code message errno write_result).2) ∧
      closesOf (TerminateClient client_sockets A code message errno write_result).2 = [A] ∧
      A ∉ (TerminateClient client_sockets A code message errno write_result).1 ∧
      liveEntries (TerminateClient client_sockets A code message errno write_result).1 =
        (liveEntries client_sockets).erase A ∧
      (∀ (s : Int) (m : List Nat) (sz : Nat) (w : Nat → Int) (bytes : List Nat),
        (A, bytes) ∉ writesOf (DispatchMessage
          (TerminateClient client_sockets A code message errno write_result).1
          s m sz w).2) := by
  have htbl : (TerminateClient client_sockets A code message errno write_result).1 =
      zeroFirst A client_sockets := by rw [terminate_eq _ _ _ _ _ _ hlen]
  have hgone : A ∉ zeroFirst A client_sockets :=
    not_mem_zeroFirst A client_sockets hA0 (count_le_one_of_live_nodup _ _ hA0 hnd)
  have hw := terminate_writes client_sockets A code errno message write_result hlen
  refine ⟨by rw [htbl]; exact hw, ?_, ?_, ?_, ?_, by rw [htbl]; exact hgone, ?_, ?_⟩
  · simp only [leftText, List.append_assoc, List.append_cancel_left_eq]
    decide
  · intro c hc hc0 hcA
    rw [hw, List.mem_map]
    obtain ⟨i, hi, e⟩ := exists_slot _ c (mem_zeroFirst A c client_sockets hc hcA)
    rw [zeroFirst_length, hlen] at hi
    exact ⟨i, (mem_recipientSlots _ _ _).2 ⟨hi, by rw [e]; exact hc0, by rw [e]; exact hcA⟩,
      by rw [e]⟩
  · intro bytes hmem
    rw [hw, List.mem_map] at hmem
    obtain ⟨i, hi, heq⟩ := hmem
    exact ((mem_recipientSlots _ _ _).1 hi).2.2 (congrArg Prod.fst heq)
  · rw [terminate_eq _ _ _ _ _ _ hlen]
    simp only [closesOf_append, dispatch_closes, hA, if_true]
    simp [closesOf]
  · rw [htbl]
    rcases liveEntries_zeroFirst A client_sockets with h | ⟨h, _⟩
    · exact h
    · exact absurd h hA0
  · intro s m sz w bytes
    rw [htbl]
    exact no_write_to_absent _ A s m sz w hA0 hgone bytes

theorem twoClients_length : twoClients.length = MAXIMUM_NUMBER_OF_CLIENTS := by
  simp only [twoClients, List.length_cons, List.length_replicate, MAXIMUM_NUMBER_OF_CLIENTS]

theorem twoClients_live : liveEntries twoClients = [4, 5] := by
  have h := liveEntries_filled [4, 5] 253 (by decide)
  exact h

/-- C5, witness: client 5 is torn down in the table that holds the clients 4 and 5; the
notification goes to 4 only. -/
theorem C5_left_notification_and_removal_witness :
    (∀ bytes, ((5 : Int), bytes) ∉
        writesOf (TerminateClient twoClients 5 0 (cstr "Tearing down client.") 0
          (fun _ => 1)).2) ∧
      ((4 : Int), leftText 5) ∈
        writesOf (TerminateClient twoClients 5 0 (cstr "Tearing down client.") 0
          (fun _ => 1)).2 ∧
      (5 : Int) ∉ (TerminateClient twoClients 5 0 (cstr "Tearing down client.") 0
        (fun _ => 1)).1 :=
  have h := C5_left_notification_and_removal twoClients 5 0 0 (cstr "Tearing down client.")
    (fun _ => 1) twoClients_length (by rw [twoClients_live]; decide) (by decide) (by decide)
  ⟨h.2.2.2.1, h.2.2.1 4 (by decide) (by decide) (by decide), h.2.2.2.2.2.1⟩

theorem removal_idempotent_of_single_slot (client_sockets : List Int) (fd : Int)
    (hlen : client_sockets.length = MAXIMUM_NUMBER_OF_CLIENTS) (hfd : fd ≠ 0)
    (honce : client_sockets.count fd ≤ 1) :
    (TerminateClient.remove (TerminateClient.remove client_sockets fd).1 fd).1 =
        (TerminateClient.remove client_sockets fd).1 ∧
      (TerminateClient.remove (TerminateClient.remove client_sockets fd).1 fd).2 = [] := by
  have hgone := not_mem_zeroFirst fd client_sockets hfd honce
  rw [remove_eq _ _ hlen]
  simp only
  rw [remove_eq _ _ (by rw [zeroFirst_length, hlen])]
  simp only [zeroFirst_of_not_mem _ _ hgone, hgone, if_false, and_self]

/-- C6. Unregistering is idempotent: for every client table the server builds (any
sequence of registrations of accepted descriptors and of `TerminateClient` removals from the
empty table) and every identity (a non-zero descriptor; zero marks a free slot), running
the removal step of `TerminateClient` a second time with the same identity leaves the table
as the first run left it, and the second run does nothing: it closes no descriptor. -/
theorem C6_unregister_idempotent (steps : List TableStep) (fd : Int)
    (hsteps : acceptsFresh emptyTable steps) (hfd : fd ≠ 0) :
    (TerminateClient.remove (TerminateClient.remove (runSteps emptyTable steps) fd).1 fd).1 =
        (TerminateClient.remove (runSteps emptyTable steps) fd).1 ∧
      (TerminateClient.remove (TerminateClient.remove (runSteps emptyTable steps) fd).1
        fd).2 = [] ∧
      closesOf (TerminateClient.remove (TerminateClient.remove (runSteps emptyTable steps)
        fd).1 fd).2 = [] ∧
      fd ∉ (TerminateClient.remove (runSteps emptyTable steps) fd).1 := by
  obtain ⟨hlen, hnd⟩ := runSteps_invariant steps emptyTable emptyTable_length
    (by rw [liveEntries_emptyTable]; exact List.nodup_nil) hsteps
  have honce := count_le_one_of_live_nodup _ fd hfd hnd
  obtain ⟨h1, h2⟩ := removal_idempotent_of_single_slot _ fd hlen hfd honce
  refine ⟨h1, h2, by rw [h2]; rfl, ?_⟩
  rw [remove_eq _ _ hlen]
  exact not_mem_zeroFirst fd _ hfd honce

set_option maxRecDepth 100000 in
/-- C6, witness: the clients 4 and 5 have connected; the identity 5 is removed twice. -/
theorem C6_unregister_idempotent_witness :
    (TerminateClient.remove (TerminateClient.remove
        (runSteps emptyTable [TableStep.register 4, TableStep.register 5]) 5).1 5).1 =
        (TerminateClient.remove
          (runSteps emptyTable [TableStep.register 4, TableStep.register 5]) 5).1 ∧
      (TerminateClient.remove (TerminateClient.remove
        (runSteps emptyTable [TableStep.register 4, TableStep.register 5]) 5).1 5).2 = [] :=
  have h := C6_unregister_idempotent [TableStep.register 4, TableStep.register 5] 5
    (by decide) (by decide)
  ⟨h.1, h.2.1⟩

/-- C7. Whatever results (success, or failure `-1`) the individual writes of a
`DispatchMessage` call get, the writes attempted are the same, to the same recipients in
the same order, as under any other results, in particular as when every write succeeds; the
call leaves `client_sockets` as it is, closes nothing, and does nothing but writes and log
lines. -/
theorem C7_failed_write_does_not_abort (client_sockets : List Int) (s : Int)
    (message : List Nat) (size : Nat) (write_result all_succeed : Nat → Int) :
    writesOf (DispatchMessage client_sockets s message size write_result).2 =
        writesOf (DispatchMessage client_sockets s message size all_succeed).2 ∧
      (DispatchMessage client_sockets s message size write_result).1 = client_sockets ∧
      closesOf (DispatchMessage client_sockets s message size write_result).2 = [] ∧
      (∀ e ∈ (DispatchMessage client_sockets s message size write_result).2,
        (∃ fd bytes, e = Event.write fd bytes) ∨ (∃ text, e = Event.printf text)) := by
  refine ⟨by rw [dispatch_writes, dispatch_writes], rfl, dispatch_closes _ _ _ _ _, ?_⟩
  exact dispatch_loop_events _ _ _ _ _ _ 0

/-! ### The session -/

theorem removeLoop_writes (fd : Int) (n : Nat) :
    ∀ (i : Nat) (tbl : List Int), writesOf (TerminateClient.loop fd n i tbl).2 = [] := by
  induction n with
  | zero => intro i tbl; rfl
  | succ n ih =>
    intro i tbl
    simp only [TerminateClient.loop]
    split
    · rfl
    · exact ih _ _

theorem terminate_no_write_to_self (tbl : List Int) (fd code errno : Int)
    (message : List Nat) (w : Nat → Int) (bytes : List Nat) :
    (fd, bytes) ∉ writesOf (TerminateClient tbl fd code message errno w).2 := by
  unfold TerminateClient
  simp only [writesOf_append, TerminateClient.remove, removeLoop_writes, List.nil_append]
  intro h
  rcases List.mem_append.1 h with h1 | h1
  · rw [dispatch_writes, List.mem_map] at h1
    obtain ⟨i, hi, heq⟩ := h1
    exact ((mem_recipientSlots _ _ _).1 hi).2.2 (congrArg Prod.fst heq)
  · simp [writesOf] at h1

theorem filter_writes_none (fd : Int) (ws : List (Int × List Nat))
    (h : ∀ bytes, (fd, bytes) ∉ ws) : ws.filter (fun p => decide (p.1 = fd)) = [] := by
  rw [List.filter_eq_nil_iff]
  intro p hp
  simp only [decide_eq_true_eq]
  intro e
  exact h p.2 (by rw [← e]; exact hp)

theorem joining_statements (st : ServerState) (fd : Int) (env : SessionEnv) :
    (∃ before after, (HandleClient.joining st fd env).1.trace =
        before ++ HandleClient.writeIdentity
          (HandleClient.formatIdentity (HandleClient.formatJoined st.buffer fd) fd) fd ::
          after ∧ writesOf before =
            writesOf (DispatchMessage st.client_sockets fd
              (HandleClient.formatJoined st.buffer fd)
              (strlen (HandleClient.formatJoined st.buffer fd)) env.joined_writes).2) ∧
      (env.id_write ≠ -1 →
        (HandleClient.joining st fd env).1.state.buffer =
            HandleClient.formatLabel
              (HandleClient.formatIdentity (HandleClient.formatJoined st.buffer fd) fd) fd ∧
          (HandleClient.joining st fd env).2 =
            HandleClient.startIndex (HandleClient.formatLabel
              (HandleClient.formatIdentity (HandleClient.formatJoined st.buffer fd) fd) fd)) ∧
      (∀ (buffer : List Nat) (start : Nat) (r : RecvResult),
        HandleClient.received buffer start r =
          poke (HandleClient.recvStore buffer start r)
            ((start : Int) + r.bytes_received).toNat [0]) := by
  refine ⟨?_, ?_, fun _ _ _ => rfl⟩
  · unfold HandleClient.joining
    simp only [HandleClient.formatJoined, HandleClient.formatIdentity,
      HandleClient.writeIdentity]
    split
    · exact ⟨Event.printf (cstring (sprintf st.buffer (joinedText fd))) ::
        (DispatchMessage st.client_sockets fd (sprintf st.buffer (joinedText fd))
          (strlen (sprintf st.buffer (joinedText fd))) env.joined_writes).2, _, rfl, rfl⟩
    · exact ⟨Event.printf (cstring (sprintf st.buffer (joinedText fd))) ::
        (DispatchMessage st.client_sockets fd (sprintf st.buffer (joinedText fd))
          (strlen (sprintf st.buffer (joinedText fd))) env.joined_writes).2, _, rfl, rfl⟩
  · intro hid
    unfold HandleClient.joining
    simp only [hid, if_false, HandleClient.formatJoined, HandleClient.formatIdentity,
      HandleClient.formatLabel, HandleClient.startIndex, and_self]

/-- In a join that no other session overlaps, the only write to the client's own connection
carries the decimal text of its identity, and for a 32-bit identity `atoi` of that text,
alone or followed by a byte that is not a digit, gives the identity. -/
theorem handshake_of_join_alone (id : Int) (st : ServerState) (env : SessionEnv) :
    (writesOf (HandleClient.joining st id env).1.trace).filter
        (fun p => decide (p.1 = id)) = [(id, formatInt id)] ∧
      (∀ b ∈ formatInt id, b = 45 ∨ isDigit b = true) ∧
      (0 ≤ id → ∀ b ∈ formatInt id, isDigit b = true) ∧
      (∀ b ∈ formatInt id, b ≠ 0) ∧
      (INT_MIN ≤ id → id ≤ INT_MAX → atoi (formatInt id) = id) ∧
      (INT_MIN ≤ id → id ≤ INT_MAX → ∀ rest : List Nat,
        (∀ b, rest.head? = some b → isDigit b = false) →
        atoi (formatInt id ++ rest) = id) := by

  refine ⟨?_, formatInt_mem id, ?_, formatInt_ne_zero id, ?_,
    fun hmin hmax rest h => atoi_formatInt id rest hmin hmax h⟩
  · rw [joining_trace]
    have hd : (writesOf (Event.printf (joinedText id) ::
        (DispatchMessage st.client_sockets id (sprintf st.buffer (joinedText id))
          (joinedText id).length env.joined_writes).2)).filter
        (fun p => decide (p.1 = id)) = [] := by
      apply filter_writes_none
      intro bytes hmem
      simp only [writesOf] at hmem
      rw [dispatch_writes, List.mem_map] at hmem
      obtain ⟨i, hi, heq⟩ := hmem
      exact ((mem_recipientSlots _ _ _).1 hi).2.2 (congrArg Prod.fst heq)
    have ht : (writesOf (if env.id_write = -1 then
          (TerminateClient st.client_sockets id 0 (cstr "Couldn't write to socket.")
            env.errno env.left_writes).2
        else [Event.printf (cstr "[Info]: Sent ID to the client.\n")])).filter
        (fun p => decide (p.1 = id)) = [] := by
      apply filter_writes_none
      intro bytes
      split
      · exact terminate_no_write_to_self _ _ _ _ _ _ _
      · simp [writesOf]
    rw [writesOf_append, List.filter_append, hd, List.nil_append]
    simp only [writesOf, List.filter_cons, decide_True, if_true, ht]
  · intro h0 b hb
    have hneg : ¬ id < 0 := by omega
    simp only [formatInt, hneg, if_false] at hb
    exact formatNat_digits _ b hb
  · intro hmin hmax
    have h := atoi_formatInt id [] hmin hmax (by simp)
    rwa [List.append_nil] at h

set_option maxRecDepth 1000000 in
/-- C10, the failing input. The joins of the clients 4 and 5 overlap: the session of client
4 has stored its identity in the shared buffer (line 85), the session of client 5 stores its
"joined" text there (line 80), then the session of client 4 writes the buffer to its own
connection (line 88). The handshake bytes of client 4 are ">>> Client 5 joined <<<" and a
newline, not "4", and `atoi` of them is 0. A join that no other session overlaps writes the
decimal text. -/
theorem C10_overlapped_handshake_is_not_the_identity :
    overlappedHandshake = Event.write 4 (cstr ">>> Client 5 joined <<<\n") ∧
      cstr ">>> Client 5 joined <<<\n" ≠ formatInt 4 ∧
      atoi (cstr ">>> Client 5 joined <<<\n") = 0 ∧
      HandleClient.writeIdentity
        (HandleClient.formatIdentity (HandleClient.formatJoined initialState.buffer 4) 4) 4 =
        Event.write 4 (cstr "4") ∧
      atoi (cstr "4") = 4 := by
  refine ⟨by decide, by decide, by decide, by decide, by decide⟩

theorem loop_trace_head (fd : Int) (start : Nat) (env : SessionEnv) (k : Nat)
    (recvs : List RecvResult) (st : ServerState) :
    ∃ rest, (HandleClient.loop fd start env k recvs st).trace = Event.recv fd :: rest := by
  cases recvs with
  | nil => exact ⟨[], rfl⟩
  | cons r rs =>
    simp only [HandleClient.loop]
    have hit : ∃ rest, (HandleClient.iteration st fd start r (env.message_writes k)).trace =
        Event.recv fd :: rest := by
      unfold HandleClient.iteration
      split
      · exact ⟨_, rfl⟩
      · split
        · exact ⟨_, rfl⟩
        · exact ⟨_, rfl⟩
    obtain ⟨rest, h⟩ := hit
    split
    · exact ⟨rest ++ (HandleClient.loop fd start env (k + 1) rs
        (HandleClient.iteration st fd start r (env.message_writes k)).state).trace,
        by simp [h]⟩
    · exact ⟨rest, h⟩

theorem handleClient_trace_next (st : ServerState) (fd : Int) (env : SessionEnv)
    (recvs : List RecvResult)
    (hc : (HandleClient.joining st fd env).1.control = Control.next) :
    ∃ tail, (HandleClient st fd env recvs).trace =
      (HandleClient.joining st fd env).1.trace ++
        (HandleClient.loop fd (HandleClient.joining st fd env).2 env 0 recvs
          (HandleClient.joining st fd env).1.state).trace ++ tail := by
  unfold HandleClient
  simp only [hc, if_true]
  split
  · exact ⟨_, rfl⟩
  · exact ⟨[], (List.append_nil _).symm⟩

set_option maxRecDepth 1000000 in
/-- C9, counterexample. The session of client 5, started when the table holds the clients 4
and 5: the "joined" notification is written to client 4 first, and the identity to client 5
after it. -/
theorem C9_joined_notification_comes_first :
    (HandleClient.joining freshState 5 calmEnv).1.trace =
      [Event.printf (joinedText 5), Event.write 4 (joinedText 5),
        Event.write 5 (formatInt 5),
        Event.printf (cstr "[Info]: Sent ID to the client.\n")] := by
  decide

/-- C9 (as the code has it). A session starts with the log line and the dispatch of the
"joined" notification to the other clients; the write of the client's own identity to its
own connection comes after that dispatch; when that write succeeds, a log line and then the
first `recv` of the loop follow. No `recv` is made before. -/
theorem C9_joined_dispatch_then_identity (st : ServerState) (fd : Int) (env : SessionEnv)
    (recvs : List RecvResult) :
    ∃ rest, (HandleClient st fd env recvs).trace =
        Event.printf (joinedText fd) ::
          (DispatchMessage st.client_sockets fd (sprintf st.buffer (joinedText fd))
            (joinedText fd).length env.joined_writes).2 ++
          Event.write fd (formatInt fd) :: rest ∧
      writesOf (DispatchMessage st.client_sockets fd (sprintf st.buffer (joinedText fd))
          (joinedText fd).length env.joined_writes).2 =
        (recipientSlots st.client_sockets fd).map
          (fun i => (slot st.client_sockets i, joinedText fd)) ∧
      (∀ e ∈ (DispatchMessage st.client_sockets fd (sprintf st.buffer (joinedText fd))
          (joinedText fd).length env.joined_writes).2, ∀ d, e ≠ Event.recv d) ∧
      (env.id_write ≠ -1 → ∃ later, rest =
        Event.printf (cstr "[Info]: Sent ID to the client.\n") :: Event.recv fd :: later) := by
  have hw : writesOf (DispatchMessage st.client_sockets fd (sprintf st.buffer (joinedText fd))
      (joinedText fd).length env.joined_writes).2 =
        (recipientSlots st.client_sockets fd).map
          (fun i => (slot st.client_sockets i, joinedText fd)) := by
    rw [dispatch_writes, take_sprintf]
  have hnr : ∀ e ∈ (DispatchMessage st.client_sockets fd (sprintf st.buffer (joinedText fd))
      (joinedText fd).length env.joined_writes).2, ∀ d, e ≠ Event.recv d := by
    intro e he d hd
    rcases dispatch_loop_events _ _ _ _ _ _ 0 e he with ⟨a, b, h⟩ | ⟨t, h⟩
    · rw [h] at hd; cases hd
    · rw [h] at hd; cases hd
  have hj := joining_trace st fd env
  by_cases hid : env.id_write = -1
  · refine ⟨(TerminateClient st.client_sockets fd 0 (cstr "Couldn't write to socket.")
      env.errno env.left_writes).2, ?_, hw, hnr, fun h => absurd hid h⟩
    have hc : (HandleClient.joining st fd env).1.control = Control.exited := by
      unfold HandleClient.joining
      simp [hid]
    have hne : ¬ (Control.exited = Control.next) := by decide
    unfold HandleClient
    simp only [hc, hne, if_false]
    rw [hj]
    simp only [hid, if_true]
  · have hc : (HandleClient.joining st fd env).1.control = Control.next := by
      unfold HandleClient.joining
      simp [hid]
    obtain ⟨later, hl⟩ := loop_trace_head fd (HandleClient.joining st fd env).2 env 0 recvs
      (HandleClient.joining st fd env).1.state
    obtain ⟨tail, ht⟩ := handleClient_trace_next st fd env recvs hc
    simp only [hid, if_false] at hj
    refine ⟨Event.printf (cstr "[Info]: Sent ID to the client.\n") :: Event.recv fd ::
      (later ++ tail), ?_, hw, hnr, fun _ => ⟨_, rfl⟩⟩
    rw [ht, hj, hl]
    simp

/-! ### The buffer of a session -/

theorem toDigitsFuel_length (fuel : Nat) :
    ∀ (n k : Nat), n < 10 ^ (k + 1) → (toDigitsFuel fuel n []).length ≤ k + 1 := by
  induction fuel with
  | zero => intro n k _; simp [toDigitsFuel]
  | succ fuel ih =>
    intro n k hn
    simp only [toDigitsFuel]
    split
    · simp
    · rename_i h0
      rw [toDigitsFuel_append]
      cases k with
      | zero => simp at hn; omega
      | succ k =>
        have h2 : n / 10 < 10 ^ (k + 1) := by
          rw [Nat.div_lt_iff_lt_mul (by decide)]
          rw [Nat.pow_succ] at hn
          exact hn
        have := ih (n / 10) k h2
        simp only [List.length_append, List.length_singleton]
        omega

theorem formatInt_length (v : Int) (hmin : INT_MIN ≤ v) (hmax : v ≤ INT_MAX) :
    (formatInt v).length ≤ 11 := by
  have hn : v.natAbs < 10 ^ (9 + 1) := by
    simp only [INT_MIN, INT_MAX] at hmin hmax
    norm_num
    omega
  have h := toDigitsFuel_length (v.natAbs + 1) v.natAbs 9 hn
  unfold formatInt
  split
  · simp only [List.length_cons, formatNat]; omega
  · simp only [formatNat]; omega

theorem labelText_length (v : Int) :
    (labelText v).length = (formatInt v).length + 9 := by
  have h1 : (cstr "Client ").length = 7 := by decide
  have h2 : (cstr ": ").length = 2 := by decide
  simp only [labelText, List.length_append, h1, h2]
  omega

theorem joinedText_length (v : Int) :
    (joinedText v).length = (formatInt v).length + 23 := by
  have h1 : (cstr ">>> Client ").length = 11 := by decide
  have h2 : (cstr " joined <<<\n").length = 12 := by decide
  simp only [joinedText, List.length_append, h1, h2]
  omega

theorem sprintf_length (buf text : List Nat) (h : text.length + 1 ≤ buf.length) :
    (sprintf buf text).length = buf.length := by
  rw [sprintf_eq]
  simp only [List.length_append, List.length_cons, List.length_drop]
  omega

theorem joining_next (st : ServerState) (fd : Int) (env : SessionEnv)
    (hid : env.id_write ≠ -1) :
    (HandleClient.joining st fd env).1.control = Control.next ∧
      (HandleClient.joining st fd env).1.state.client_sockets = st.client_sockets := by
  unfold HandleClient.joining
  simp [hid, dispatch_table]

theorem joining_buffer (st : ServerState) (fd : Int) (env : SessionEnv)
    (hbuf : st.buffer.length = BUFFER_SIZE) (hmin : INT_MIN ≤ fd) (hmax : fd ≤ INT_MAX)
    (hid : env.id_write ≠ -1) :
    (HandleClient.joining st fd env).2 = (labelText fd).length ∧
      (HandleClient.joining st fd env).1.state.buffer.length = BUFFER_SIZE ∧
      ∃ tail, (HandleClient.joining st fd env).1.state.buffer = labelText fd ++ tail := by
  have hf := formatInt_length fd hmin hmax
  have hl := labelText_length fd
  have hjl := joinedText_length fd
  have hB : BUFFER_SIZE = 1023 := rfl
  have htake : (labelText fd).take (BUFFER_SIZE - 1) = labelText fd := by
    apply List.take_of_length_le
    omega
  have hsn : ∀ buf, snprintf buf BUFFER_SIZE (labelText fd) = sprintf buf (labelText fd) := by
    intro buf
    simp only [snprintf, sprintf, htake]
  unfold HandleClient.joining
  simp only [hid, if_false, hsn]
  refine ⟨strlen_sprintf _ _ (labelText_ne_zero fd), ?_, ⟨_, sprintf_eq _ _⟩⟩
  rw [sprintf_length, sprintf_length, sprintf_length, hbuf]
  · omega
  · rw [sprintf_length] <;> omega
  · rw [sprintf_length, sprintf_length] <;> (try rw [sprintf_length]) <;> omega

theorem received_eq (label tail data : List Nat) (n : Int) (hn : n = (data.length : Int)) :
    HandleClient.received (label ++ tail) label.length { bytes_received := n, data := data } =
      label ++ data ++ 0 :: tail.drop (data.length + 1) := by
  have hidx : ((label.length : Int) + n).toNat = label.length + data.length := by
    rw [hn]; omega
  simp only [HandleClient.received, hidx, poke]
  have h1 : (label ++ tail).take label.length = label := by simp
  have h2 : (label ++ tail).drop (label.length + data.length) = tail.drop data.length := by
    rw [List.drop_append_eq_append_drop]
    simp
  rw [h1, h2]
  have h3 : (label ++ data ++ tail.drop data.length).take (label.length + data.length) =
      label ++ data := by
    rw [List.take_append_eq_append_take]
    simp
  have h4 : (label ++ data ++ tail.drop data.length).drop
      (label.length + data.length + [0].length) = tail.drop (data.length + 1) := by
    rw [List.drop_append_eq_append_drop]
    simp [Nat.add_comm]
  rw [h3, h4]
  simp

theorem iteration_buffer (st : ServerState) (fd : Int) (r : RecvResult) (w : Nat → Int)
    (hr : r.wellFormed) (hlen : st.buffer.length = BUFFER_SIZE)
    (hlab : (labelText fd).length ≤ 20)
    (hpre : ∃ tail, st.buffer = labelText fd ++ tail) :
    (HandleClient.iteration st fd (labelText fd).length r w).state.buffer.length =
        BUFFER_SIZE ∧
      (∃ tail, (HandleClient.iteration st fd (labelText fd).length r w).state.buffer =
        labelText fd ++ tail) ∧
      (HandleClient.iteration st fd (labelText fd).length r w).state.client_sockets =
        st.client_sockets := by
  unfold HandleClient.iteration
  split
  · exact ⟨hlen, hpre, rfl⟩
  · split
    · exact ⟨hlen, hpre, rfl⟩
    · rename_i h1 h2
      rcases hr with h | ⟨h, hle⟩
      · exact absurd h h1
      · obtain ⟨tail, ht⟩ := hpre
        have hrec := received_eq (labelText fd) tail r.data r.bytes_received h
        simp only [dispatch_table]
        rw [ht, hrec]
        refine ⟨?_, ⟨_, List.append_assoc _ _ _⟩, trivial⟩
        have htl : tail.length = BUFFER_SIZE - (labelText fd).length := by
          rw [ht, List.length_append] at hlen
          omega
        simp only [List.length_append, List.length_cons, List.length_drop, htl,
          BUFFER_SIZE, max_size_to_receive] at hle ⊢
        omega

theorem loop_buffer (fd : Int) (env : SessionEnv) (hlab : (labelText fd).length ≤ 20)
    (recvs : List RecvResult) :
    ∀ (k : Nat) (st : ServerState), (∀ x ∈ recvs, x.wellFormed) →
      st.buffer.length = BUFFER_SIZE → (∃ tail, st.buffer = labelText fd ++ tail) →
      (HandleClient.loop fd (labelText fd).length env k recvs st).state.buffer.length =
          BUFFER_SIZE ∧
        (∃ tail, (HandleClient.loop fd (labelText fd).length env k recvs st).state.buffer =
          labelText fd ++ tail) ∧
        (HandleClient.loop fd (labelText fd).length env k recvs st).state.client_sockets =
          st.client_sockets := by
  induction recvs with
  | nil => intro k st _ hlen hpre; exact ⟨hlen, hpre, rfl⟩
  | cons r rs ih =>
    intro k st hwf hlen hpre
    obtain ⟨h1, h2, h3⟩ := iteration_buffer st fd r (env.message_writes k)
      (hwf r (List.mem_cons_self _ _)) hlen hlab hpre
    simp only [HandleClient.loop]
    split
    · obtain ⟨g1, g2, g3⟩ := ih (k + 1) _ (fun x hx => hwf x (List.mem_cons_of_mem _ hx)) h1 h2
      exact ⟨g1, g2, g3.trans h3⟩
    · exact ⟨h1, h2, h3⟩

theorem stateAfter_buffer (st : ServerState) (fd : Int) (env : SessionEnv)
    (earlier : List RecvResult) (hbuf : st.buffer.length = BUFFER_SIZE)
    (hmin : INT_MIN ≤ fd) (hmax : fd ≤ INT_MAX) (hid : env.id_write ≠ -1)
    (hearlier : ∀ x ∈ earlier, x.wellFormed) :
    (stateAfter st fd env earlier).buffer.length = BUFFER_SIZE ∧
      (∃ tail, (stateAfter st fd env earlier).buffer = labelText fd ++ tail) ∧
      (stateAfter st fd env earlier).client_sockets = st.client_sockets := by
  obtain ⟨hstart, hlen, hpre⟩ := joining_buffer st fd env hbuf hmin hmax hid
  have hlab : (labelText fd).length ≤ 20 := by
    have := formatInt_length fd hmin hmax
    rw [labelText_length]
    omega
  unfold stateAfter
  rw [hstart]
  obtain ⟨g1, g2, g3⟩ := loop_buffer fd env hlab earlier 0 _ hearlier hlen hpre
  exact ⟨g1, g2, g3.trans (joining_next st fd env hid).2⟩

/-- C8 (as the code has it). In a session for a 32-bit identity `id` that runs on its own
(no other session stores into the shared buffer in between), whatever it received before,
for every received payload of 1 to 1000 bytes none of which is NUL: the iteration
calls `DispatchMessage` with the buffer and the size `label length + payload length`, the
first `size` bytes of the buffer being the label `"Client <id>: "` followed by all the bytes
of the payload; these are the bytes written to every recipient. The buffer keeps its
`BUFFER_SIZE` bytes. -/
theorem C8_label_then_payload (st : ServerState) (id : Int) (env : SessionEnv)
    (earlier : List RecvResult) (r : RecvResult) (write_result : Nat → Int)
    (hbuf : st.buffer.length = BUFFER_SIZE) (hmin : INT_MIN ≤ id) (hmax : id ≤ INT_MAX)
    (hid : env.id_write ≠ -1) (hearlier : ∀ x ∈ earlier, x.wellFormed)
    (hr : r.bytes_received = (r.data.length : Int)) (h1 : 1 ≤ r.data.length)
    (hmaxlen : r.data.length ≤ max_size_to_receive) (hnul : ∀ b ∈ r.data, b ≠ 0) :
    HandleClient.iteration (stateAfter st id env earlier) id
        (HandleClient.joining st id env).2 r write_result =
      { state :=
          { client_sockets := (stateAfter st id env earlier).client_sockets,
            buffer := HandleClient.received (stateAfter st id env earlier).buffer
              (HandleClient.joining st id env).2 r },
        trace := [Event.recv id, Event.printf (labelText id ++ r.data)] ++
          (DispatchMessage (stateAfter st id env earlier).client_sockets id
            (HandleClient.received (stateAfter st id env earlier).buffer
              (HandleClient.joining st id env).2 r)
            ((labelText id).length + r.data.length) write_result).2,
        control := Control.next } ∧
      (HandleClient.received (stateAfter st id env earlier).buffer
          (HandleClient.joining st id env).2 r).take
          ((labelText id).length + r.data.length) = labelText id ++ r.data ∧
      writesOf (HandleClient.iteration (stateAfter st id env earlier) id
          (HandleClient.joining st id env).2 r write_result).trace =
        (recipientSlots (stateAfter st id env earlier).client_sockets id).map
          (fun i => (slot (stateAfter st id env earlier).client_sockets i,
            labelText id ++ r.data)) ∧
      (HandleClient.received (stateAfter st id env earlier).buffer
          (HandleClient.joining st id env).2 r).length = BUFFER_SIZE := by
  obtain ⟨hlen, ⟨tail, hpre⟩, _⟩ :=
    stateAfter_buffer st id env earlier hbuf hmin hmax hid hearlier
  have hstart := (joining_buffer st id env hbuf hmin hmax hid).1
  have hlab : (labelText id).length ≤ 20 := by
    have := formatInt_length id hmin hmax
    rw [labelText_length]
    omega
  have hrec : HandleClient.received (stateAfter st id env earlier).buffer
      (HandleClient.joining st id env).2 r =
        (labelText id ++ r.data) ++ 0 :: tail.drop (r.data.length + 1) := by
    rw [hstart, hpre]
    exact received_eq (labelText id) tail r.data r.bytes_received hr
  have hnz : ∀ b ∈ labelText id ++ r.data, b ≠ 0 := by
    intro b hb
    rcases List.mem_append.1 hb with h | h
    · exact labelText_ne_zero id b h
    · exact hnul b h
  have hstr : strlen (HandleClient.received (stateAfter st id env earlier).buffer
      (HandleClient.joining st id env).2 r) = (labelText id).length + r.data.length := by
    rw [hrec, strlen_text _ _ hnz, List.length_append]
  have hcs : cstring (HandleClient.received (stateAfter st id env earlier).buffer
      (HandleClient.joining st id env).2 r) = labelText id ++ r.data := by
    rw [hrec, cstring_text _ _ hnz]
  have htake : (HandleClient.received (stateAfter st id env earlier).buffer
      (HandleClient.joining st id env).2 r).take
        ((labelText id).length + r.data.length) = labelText id ++ r.data := by
    rw [hrec, ← List.length_append]
    exact List.take_left' rfl
  have hne1 : r.bytes_received ≠ -1 := by omega
  have hne0 : r.bytes_received ≠ 0 := by omega
  have hit : HandleClient.iteration (stateAfter st id env earlier) id
      (HandleClient.joining st id env).2 r write_result =
      { state :=
          { client_sockets := (stateAfter st id env earlier).client_sockets,
            buffer := HandleClient.received (stateAfter st id env earlier).buffer
              (HandleClient.joining st id env).2 r },
        trace := [Event.recv id, Event.printf (labelText id ++ r.data)] ++
          (DispatchMessage (stateAfter st id env earlier).client_sockets id
            (HandleClient.received (stateAfter st id env earlier).buffer
              (HandleClient.joining st id env).2 r)
            ((labelText id).length + r.data.length) write_result).2,
        control := Control.next } := by
    unfold HandleClient.iteration
    simp only [hne1, hne0, if_false, hstr, hcs, dispatch_table]
  refine ⟨hit, htake, ?_, ?_⟩
  · rw [hit]
    have hw : ∀ es : List Event, writesOf ([Event.recv id,
        Event.printf (labelText id ++ r.data)] ++ es) = writesOf es := fun _ => rfl
    rw [hw, dispatch_writes, htake]
  · rw [hrec]
    have htl : tail.length = BUFFER_SIZE - (labelText id).length := by
      rw [hpre, List.length_append] at hlen
      omega
    simp only [List.length_append, List.length_cons, List.length_drop, htl,
      BUFFER_SIZE, max_size_to_receive] at hmaxlen ⊢
    omega

set_option maxRecDepth 1000000 in
/-- C8, witness: client 5, which received "hi" before, receives "hello". -/
theorem C8_label_then_payload_witness :
    (HandleClient.received (stateAfter freshState 5 calmEnv [⟨2, [104, 105]⟩]).buffer
        (HandleClient.joining freshState 5 calmEnv).2 ⟨5, [104, 101, 108, 108, 111]⟩).take
        ((labelText 5).length + 5) = labelText 5 ++ [104, 101, 108, 108, 111] :=
  (C8_label_then_payload freshState 5 calmEnv [⟨2, [104, 105]⟩]
    ⟨5, [104, 101, 108, 108, 111]⟩ (fun _ => 1) (by decide) (by decide) (by decide)
    (by decide) (by decide) (by decide) (by decide) (by decide) (by decide)).2.1

set_option maxRecDepth 1000000 in
/-- C8, counterexample. Client 5 receives the three bytes `a`, NUL, `b`: what is dispatched
(and written to client 4) is the label followed by `a` only, one byte and not three after
the label. -/
theorem C8_payload_cut_at_nul :
    writesOf (HandleClient.iteration (stateAfter freshState 5 calmEnv []) 5
        (HandleClient.joining freshState 5 calmEnv).2 ⟨3, [97, 0, 98]⟩ (fun _ => 1)).trace =
      [(4, labelText 5 ++ [97])] ∧
      labelText 5 ++ [97] ≠ labelText 5 ++ [97, 0, 98] := by
  refine ⟨by decide, by decide⟩

set_option maxRecDepth 1000000 in
/-- The buffer of `HandleClient` is `static`, hence one buffer for all sessions: when the
session of client 5 starts after the session of client 4 has stored its label, the next
message of client 4 ("hi") is dispatched with the label of client 5. -/
theorem shared_buffer_carries_later_label :
    writesOf (HandleClient.iteration
        (HandleClient.joining (HandleClient.joining freshState 4 calmEnv).1.state 5
          calmEnv).1.state
        4 (HandleClient.joining freshState 4 calmEnv).2 ⟨2, [104, 105]⟩ (fun _ => 1)).trace =
      [(5, labelText 5 ++ [104, 105])] := by
  decide

/-! ### The scenario with two clients -/

theorem dispatch_loop_writes_list (s : Int) (m : List Nat) (sz : Nat) (w : Nat → Int)
    (xs : List Int) :
    ∀ pre : List Int,
      writesOf (DispatchMessage.loop (pre ++ xs) s m sz w xs.length pre.length) =
        (xs.filter (fun c => decide (c ≠ 0 ∧ c ≠ s))).map (fun c => (c, m.take sz)) := by
  induction xs with
  | nil => intro pre; simp [DispatchMessage.loop, writesOf]
  | cons x xs ih =>
    intro pre
    have h := ih (pre ++ [x])
    simp only [List.length_append, List.length_singleton, List.append_assoc,
      List.singleton_append] at h
    simp only [List.length_cons, DispatchMessage.loop, slot_append_length]
    by_cases hx : x = 0 ∨ x = s
    · have hx2 : ¬ (x ≠ 0 ∧ x ≠ s) := by tauto
      simp only [hx, if_true, h, List.filter_cons, hx2, decide_False, Bool.false_eq_true,
        if_false]
    · have hx2 : x ≠ 0 ∧ x ≠ s := by tauto
      have hp : (x :: xs).filter (fun c => decide (c ≠ 0 ∧ c ≠ s)) =
          x :: xs.filter (fun c => decide (c ≠ 0 ∧ c ≠ s)) := by
        simp [List.filter_cons, hx2]
      rw [hp, List.map_cons]
      simp only [hx, if_false, writesOf, writesOf_append, h]
      split <;> simp [writesOf]

theorem dispatch_writes_list (tbl : List Int) (s : Int) (m : List Nat) (sz : Nat)
    (w : Nat → Int) (hlen : tbl.length = MAXIMUM_NUMBER_OF_CLIENTS) :
    writesOf (DispatchMessage tbl s m sz w).2 =
      (tbl.filter (fun c => decide (c ≠ 0 ∧ c ≠ s))).map (fun c => (c, m.take sz)) := by
  have h := dispatch_loop_writes_list s m sz w tbl []
  simp only [List.nil_append, List.length_nil] at h
  rw [DispatchMessage, ← hlen]
  exact h

theorem filter_zeros (k : Nat) (s : Int) :
    (List.replicate k (0 : Int)).filter (fun c => decide (c ≠ 0 ∧ c ≠ s)) = [] := by
  rw [List.filter_eq_nil_iff]
  intro c hc
  simp [(List.mem_replicate.1 hc).2]

theorem register_first (a : Int) :
    main.register emptyTable a = a :: List.replicate 254 0 := by
  rw [register_eq _ _ emptyTable_length]
  exact fillFirst_append a [] 254 (by simp)

theorem register_second (a b : Int) (ha : a ≠ 0) :
    main.register (a :: List.replicate 254 0) b = a :: b :: List.replicate 253 0 := by
  rw [register_eq _ _ (by
    simp only [List.length_cons, List.length_replicate, MAXIMUM_NUMBER_OF_CLIENTS])]
  exact fillFirst_append b [a] 253 (by simpa using ha)

theorem joining_writes (st : ServerState) (fd : Int) (env : SessionEnv)
    (hlen : st.client_sockets.length = MAXIMUM_NUMBER_OF_CLIENTS) (hid : env.id_write ≠ -1) :
    writesOf (HandleClient.joining st fd env).1.trace =
      (st.client_sockets.filter (fun c => decide (c ≠ 0 ∧ c ≠ fd))).map
        (fun c => (c, joinedText fd)) ++ [(fd, formatInt fd)] := by
  rw [joining_trace]
  simp only [hid, if_false]
  have h : ∀ es : List Event, writesOf (Event.printf (joinedText fd) :: es) = writesOf es :=
    fun _ => rfl
  rw [writesOf_append, h, dispatch_writes_list _ _ _ _ _ hlen, take_sprintf]
  simp [writesOf]

theorem terminate_writes_list (tbl : List Int) (fd code errno : Int) (message : List Nat)
    (w : Nat → Int) (hlen : tbl.length = MAXIMUM_NUMBER_OF_CLIENTS) :
    writesOf (TerminateClient tbl fd code message errno w).2 =
      ((zeroFirst fd tbl).filter (fun c => decide (c ≠ 0 ∧ c ≠ fd))).map
        (fun c => (c, leftText fd)) := by
  rw [terminate_eq _ _ _ _ _ _ hlen]
  have h1 : writesOf (if fd ∈ tbl then [Event.close fd] else []) = [] := by
    split <;> rfl
  simp only [writesOf_append, h1, List.nil_append]
  rw [dispatch_writes_list _ _ _ _ _ (by rw [zeroFirst_length, hlen]), take_sprintf]
  simp [writesOf]

theorem iteration_pos (st : ServerState) (fd : Int) (start : Nat) (r : RecvResult)
    (w : Nat → Int) (h1 : r.bytes_received ≠ -1) (h0 : r.bytes_received ≠ 0) :
    HandleClient.iteration st fd start r w =
      { state := { client_sockets := st.client_sockets,
                   buffer := HandleClient.received st.buffer start r },
        trace := [Event.recv fd, Event.printf (cstring (HandleClient.received st.buffer start r))]
          ++ (DispatchMessage st.client_sockets fd (HandleClient.received st.buffer start r)
            (strlen (HandleClient.received st.buffer start r)) w).2,
        control := Control.next } := by
  unfold HandleClient.iteration
  simp only [h1, h0, if_false, dispatch_table]

theorem iteration_zero (st : ServerState) (fd : Int) (start : Nat) (r : RecvResult)
    (w : Nat → Int) (h0 : r.bytes_received = 0) :
    HandleClient.iteration st fd start r w =
      { state := st,
        trace := [Event.recv fd,
          Event.printf (cstr "Client " ++ formatInt fd ++ cstr " disconnected.\n")],
        control := Control.left_loop } := by
  unfold HandleClient.iteration
  have h1 : r.bytes_received ≠ -1 := by omega
  rw [if_neg h1, if_pos h0]

theorem iteration_failed (st : ServerState) (fd : Int) (start : Nat) (r : RecvResult)
    (w : Nat → Int) (h1 : r.bytes_received = -1) :
    HandleClient.iteration st fd start r w =
      { state := st,
        trace := [Event.recv fd, Event.printf (cstr "Issue with connection.\n")],
        control := Control.left_loop } := by
  unfold HandleClient.iteration
  simp only [h1, if_true]

theorem session_iteration_table (st : ServerState) (fd : Int) (start : Nat) (r : RecvResult)
    (w : Nat → Int) :
    (HandleClient.iteration st fd start r w).state.client_sockets = st.client_sockets := by
  unfold HandleClient.iteration
  split
  · rfl
  · split <;> rfl

theorem iteration_writes (st : ServerState) (fd : Int) (start : Nat) (r : RecvResult)
    (w : Nat → Int) (h1 : r.bytes_received ≠ -1) (h0 : r.bytes_received ≠ 0)
    (hlen : st.client_sockets.length = MAXIMUM_NUMBER_OF_CLIENTS) :
    writesOf (HandleClient.iteration st fd start r w).trace =
      (st.client_sockets.filter (fun c => decide (c ≠ 0 ∧ c ≠ fd))).map
        (fun c => (c, (HandleClient.received st.buffer start r).take
          (strlen (HandleClient.received st.buffer start r)))) := by
  rw [iteration_pos _ _ _ _ _ h1 h0]
  have hw : ∀ (t : List Nat) (es : List Event),
      writesOf ([Event.recv fd, Event.printf t] ++ es) = writesOf es := fun _ _ => rfl
  simp only
  rw [hw, dispatch_writes_list _ _ _ _ _ hlen]

theorem zeroFirst_cons_ne (x fd : Int) (xs : List Int) (h : x ≠ fd) :
    zeroFirst fd (x :: xs) = x :: zeroFirst fd xs := by
  simp [zeroFirst, h]

theorem zeroFirst_cons_self (fd : Int) (xs : List Int) :
    zeroFirst fd (fd :: xs) = 0 :: xs := by
  simp [zeroFirst]

theorem scenario_tables (a b errno : Int) (ha0 : a ≠ 0) (ha1 : a ≠ -1) (hb1 : b ≠ -1) :
    (main.iteration 0 errno initialState.client_sockets a 0).client_sockets =
        a :: List.replicate 254 0 ∧
      (main.iteration 0 errno (a :: List.replicate 254 0) b 0).client_sockets =
        a :: b :: List.replicate 253 0 := by
  rw [iteration_table _ _ _ _ _ ha1, iteration_table _ _ _ _ _ hb1]
  exact ⟨register_first a, register_second a b ha0⟩

theorem filter_one (a s : Int) (k : Nat) (ha0 : a ≠ 0) (has : a ≠ s) :
    (a :: List.replicate k 0).filter (fun c => decide (c ≠ 0 ∧ c ≠ s)) = [a] := by
  have hp : (a :: List.replicate k 0).filter (fun c => decide (c ≠ 0 ∧ c ≠ s)) =
      a :: (List.replicate k 0).filter (fun c => decide (c ≠ 0 ∧ c ≠ s)) := by
    simp [List.filter_cons, ha0, has]
  rw [hp, filter_zeros]

theorem filter_self (s : Int) (xs : List Int) :
    (s :: xs).filter (fun c => decide (c ≠ 0 ∧ c ≠ s)) =
      xs.filter (fun c => decide (c ≠ 0 ∧ c ≠ s)) := by
  simp [List.filter_cons]

theorem filter_keep (a s : Int) (xs : List Int) (ha0 : a ≠ 0) (has : a ≠ s) :
    (a :: xs).filter (fun c => decide (c ≠ 0 ∧ c ≠ s)) =
      a :: xs.filter (fun c => decide (c ≠ 0 ∧ c ≠ s)) := by
  simp [List.filter_cons, ha0, has]

theorem filter_zero_cons (s : Int) (xs : List Int) :
    ((0 : Int) :: xs).filter (fun c => decide (c ≠ 0 ∧ c ≠ s)) =
      xs.filter (fun c => decide (c ≠ 0 ∧ c ≠ s)) := by
  simp [List.filter_cons]

/-- C11 (as the code has it). Scenario on a server that has just started, `accept` giving
the descriptors `a` for the first client and `b` for the second, the handshake writes
succeeding: the first client is sent the decimal text of `a` and the second that of `b`
(and the first is told that `b` joined); when the first then sends "hello", one message is
written, to the second client; when the second then disconnects, it is closed and the first
is written exactly `">>> Client <b> left <<<"` followed by a newline character. -/
theorem C11_scenario_with_descriptors (a b : Int) (env : SessionEnv)
    (ha0 : a ≠ 0) (ha1 : a ≠ -1) (hb0 : b ≠ 0) (hb1 : b ≠ -1) (hab : a ≠ b)
    (hid : env.id_write ≠ -1) :
    writesOf (scenario a b env (cstr "hello")).joinA = [(a, formatInt a)] ∧
      writesOf (scenario a b env (cstr "hello")).joinB =
        [(a, joinedText b), (b, formatInt b)] ∧
      (writesOf (scenario a b env (cstr "hello")).message).map Prod.fst = [b] ∧
      writesOf (scenario a b env (cstr "hello")).leaveB = [(a, leftText b)] ∧
      closesOf (scenario a b env (cstr "hello")).leaveB = [b] ∧
      leftText b = cstr ">>> Client " ++ formatInt b ++ cstr " left <<<" ++ [10] := by
  obtain ⟨hT1, hT2⟩ := scenario_tables a b env.errno ha0 ha1 hb1
  have hlen1 : (a :: List.replicate 254 (0 : Int)).length = MAXIMUM_NUMBER_OF_CLIENTS := by
    simp only [List.length_cons, List.length_replicate, MAXIMUM_NUMBER_OF_CLIENTS]
  have hlen2 : (a :: b :: List.replicate 253 (0 : Int)).length =
      MAXIMUM_NUMBER_OF_CLIENTS := by
    simp only [List.length_cons, List.length_replicate, MAXIMUM_NUMBER_OF_CLIENTS]
  have hba : b ≠ a := fun e => hab e.symm
  have hpay1 : ((cstr "hello").length : Int) ≠ -1 := by omega
  have hpay0 : ((cstr "hello").length : Int) ≠ 0 := by decide
  have hleft : leftText b = cstr ">>> Client " ++ formatInt b ++ cstr " left <<<" ++ [10] := by
    simp only [leftText, List.append_assoc, List.append_cancel_left_eq]
    decide
  have hjA : ∀ buf : List Nat, (HandleClient.joining
      { client_sockets := a :: List.replicate 254 0, buffer := buf } a env).1.state.client_sockets
        = a :: List.replicate 254 0 := fun buf => (joining_next _ _ _ hid).2
  have hjB : ∀ buf : List Nat, (HandleClient.joining
      { client_sockets := a :: b :: List.replicate 253 0, buffer := buf } b
        env).1.state.client_sockets = a :: b :: List.replicate 253 0 :=
    fun buf => (joining_next _ _ _ hid).2
  unfold scenario
  simp only [hT1, hjA, hT2]
  refine ⟨?_, ?_, ?_, ?_, ?_, hleft⟩
  · rw [joining_writes _ _ _ hlen1 hid]
    simp only [filter_self, filter_zeros, List.map_nil, List.nil_append]
  · rw [joining_writes _ _ _ hlen2 hid]
    simp only [filter_keep a b _ ha0 hab, filter_self, filter_zeros, List.map_cons,
      List.map_nil, List.cons_append, List.nil_append]
  · rw [iteration_writes _ _ _ _ _ hpay1 hpay0 (by rw [hjB]; exact hlen2), hjB]
    simp only [filter_self, filter_one b a 253 hb0 hba, List.map_cons, List.map_nil]
  · rw [writesOf_append, iteration_zero _ _ _ _ _ rfl]
    simp only [session_iteration_table, hjB]
    rw [terminate_writes_list _ _ _ _ _ _ hlen2]
    have hz : zeroFirst b (a :: b :: List.replicate 253 0) =
        a :: 0 :: List.replicate 253 0 := by
      rw [zeroFirst_cons_ne _ _ _ hab, zeroFirst_cons_self]
    rw [hz, filter_keep a b _ ha0 hab, filter_zero_cons, filter_zeros]
    rfl
  · rw [closesOf_append, iteration_zero _ _ _ _ _ rfl]
    simp only [session_iteration_table, hjB]
    rw [terminate_eq _ _ _ _ _ _ hlen2]
    have hmem : b ∈ a :: b :: List.replicate 253 (0 : Int) :=
      List.mem_cons_of_mem _ (List.mem_cons_self _ _)
    simp only [closesOf_append, dispatch_closes, hmem, if_true]
    simp [closesOf]

set_option maxRecDepth 1000000 in
/-- C11, witness: the descriptors 4 and 5, which `accept` gives on a server that has just
started with the descriptors 0 to 3 in use. -/
theorem C11_scenario_with_descriptors_witness :
    writesOf (scenario 4 5 calmEnv (cstr "hello")).joinA = [(4, formatInt 4)] ∧
      writesOf (scenario 4 5 calmEnv (cstr "hello")).leaveB = [(4, leftText 5)] :=
  have h := C11_scenario_with_descriptors 4 5 calmEnv (by decide) (by decide) (by decide)
    (by decide) (by decide) (by decide)
  ⟨h.1, h.2.2.2.1⟩

set_option maxRecDepth 1000000 in
/-- C11, counterexample. With the descriptors 4 and 5 the clients are sent "4" and "5", not
"1" and "2". Even when `accept` gives the descriptors 1 and 2: the "hello" of client 1 is
written to client 2 as "Client 2: hello" (the label in the shared buffer is that of the
session that started last), and client 1 is written ">>> Client 2 left <<<" with a newline
character after it. -/
theorem C11_scenario_differs :
    writesOf (scenario 4 5 calmEnv (cstr "hello")).joinA = [(4, cstr "4")] ∧
      writesOf (scenario 4 5 calmEnv (cstr "hello")).joinB =
        [(4, cstr ">>> Client 5 joined <<<\n"), (5, cstr "5")] ∧
      writesOf (scenario 1 2 calmEnv (cstr "hello")).message =
        [(2, cstr "Client 2: hello")] ∧
      writesOf (scenario 1 2 calmEnv (cstr "hello")).leaveB =
        [(1, cstr ">>> Client 2 left <<<\n")] ∧
      cstr "Client 2: hello" ≠ cstr "Client 1: hello" ∧
      cstr ">>> Client 2 left <<<\n" ≠ cstr ">>> Client 2 left <<<" := by
  refine ⟨by decide, by decide, by decide, by decide, by decide, by decide⟩

/-! ### The results of `recv` -/

/-- C12. For every result `r` that `recv` can return (`-1` or more) at any point of the
loop of `HandleClient`: when `r < 0` or `r = 0` the loop is left after the `recv` and a log
line, nothing is written and the state is as it was, and `HandleClient` goes on with
`TerminateClient` and exits; when `r > 0` the iteration dispatches the buffer and the loop
goes on with the next `recv`. -/
theorem C12_recv_result_decides (st : ServerState) (fd : Int) (start : Nat)
    (env : SessionEnv) (k : Nat) (r : RecvResult) (rs : List RecvResult)
    (hr : -1 ≤ r.bytes_received) :
    (r.bytes_received ≤ 0 →
      (HandleClient.loop fd start env k (r :: rs) st).control = Control.left_loop ∧
        (HandleClient.loop fd start env k (r :: rs) st).state = st ∧
        writesOf (HandleClient.loop fd start env k (r :: rs) st).trace = [] ∧
        ∃ text, (HandleClient.loop fd start env k (r :: rs) st).trace =
          [Event.recv fd, Event.printf text]) ∧
      (0 < r.bytes_received →
        (HandleClient.loop fd start env k (r :: rs) st).trace =
            [Event.recv fd,
              Event.printf (cstring (HandleClient.received st.buffer start r))] ++
              (DispatchMessage st.client_sockets fd (HandleClient.received st.buffer start r)
                (strlen (HandleClient.received st.buffer start r))
                (env.message_writes k)).2 ++
              (HandleClient.loop fd start env (k + 1) rs
                { client_sockets := st.client_sockets,
                  buffer := HandleClient.received st.buffer start r }).trace ∧
          (HandleClient.loop fd start env k (r :: rs) st).control =
            (HandleClient.loop fd start env (k + 1) rs
              { client_sockets := st.client_sockets,
                buffer := HandleClient.received st.buffer start r }).control ∧
          ∃ later, (HandleClient.loop fd start env (k + 1) rs
              { client_sockets := st.client_sockets,
                buffer := HandleClient.received st.buffer start r }).trace =
            Event.recv fd :: later) ∧
      (∀ (st0 : ServerState) (recvs : List RecvResult),
        (HandleClient.joining st0 fd env).1.control = Control.next →
        (HandleClient.loop fd (HandleClient.joining st0 fd env).2 env 0 recvs
          (HandleClient.joining st0 fd env).1.state).control = Control.left_loop →
        (HandleClient st0 fd env recvs).control = Control.exited ∧
          (HandleClient st0 fd env recvs).trace =
            (HandleClient.joining st0 fd env).1.trace ++
              (HandleClient.loop fd (HandleClient.joining st0 fd env).2 env 0 recvs
                (HandleClient.joining st0 fd env).1.state).trace ++
              (TerminateClient
                (HandleClient.loop fd (HandleClient.joining st0 fd env).2 env 0 recvs
                  (HandleClient.joining st0 fd env).1.state).state.client_sockets
                fd 0 (cstr "Tearing down client.") env.errno env.left_writes).2) := by
  have hne : ¬ (Control.left_loop = Control.next) := by decide
  refine ⟨?_, ?_, ?_⟩
  · intro hle
    have hcases : r.bytes_received = -1 ∨ r.bytes_received = 0 := by omega
    rcases hcases with h | h
    · have hloop : HandleClient.loop fd start env k (r :: rs) st =
          { state := st,
            trace := [Event.recv fd, Event.printf (cstr "Issue with connection.\n")],
            control := Control.left_loop } := by
        simp only [HandleClient.loop, iteration_failed _ _ _ _ _ h, hne, if_false]
      rw [hloop]
      exact ⟨rfl, rfl, rfl, _, rfl⟩
    · have hloop : HandleClient.loop fd start env k (r :: rs) st =
          { state := st,
            trace := [Event.recv fd,
              Event.printf (cstr "Client " ++ formatInt fd ++ cstr " disconnected.\n")],
            control := Control.left_loop } := by
        simp only [HandleClient.loop, iteration_zero _ _ _ _ _ h, hne, if_false]
      rw [hloop]
      exact ⟨rfl, rfl, rfl, _, rfl⟩
  · intro hpos
    have h1 : r.bytes_received ≠ -1 := by omega
    have h0 : r.bytes_received ≠ 0 := by omega
    have hloop : HandleClient.loop fd start env k (r :: rs) st =
        { state := (HandleClient.loop fd start env (k + 1) rs
            { client_sockets := st.client_sockets,
              buffer := HandleClient.received st.buffer start r }).state,
          trace := ([Event.recv fd,
              Event.printf (cstring (HandleClient.received st.buffer start r))] ++
              (DispatchMessage st.client_sockets fd (HandleClient.received st.buffer start r)
                (strlen (HandleClient.received st.buffer start r))
                (env.message_writes k)).2) ++
            (HandleClient.loop fd start env (k + 1) rs
              { client_sockets := st.client_sockets,
                buffer := HandleClient.received st.buffer start r }).trace,
          control := (HandleClient.loop fd start env (k + 1) rs
            { client_sockets := st.client_sockets,
              buffer := HandleClient.received st.buffer start r }).control } := by
      simp only [HandleClient.loop, iteration_pos _ _ _ _ _ h1 h0, if_true]
    rw [hloop]
    exact ⟨rfl, rfl, loop_trace_head _ _ _ _ _ _⟩
  · intro st0 recvs hj hl
    have hH : HandleClient st0 fd env recvs =
        { state :=
            { client_sockets := (TerminateClient
                (HandleClient.loop fd (HandleClient.joining st0 fd env).2 env 0 recvs
                  (HandleClient.joining st0 fd env).1.state).state.client_sockets
                fd 0 (cstr "Tearing down client.") env.errno env.left_writes).1,
              buffer := (HandleClient.loop fd (HandleClient.joining st0 fd env).2 env 0 recvs
                (HandleClient.joining st0 fd env).1.state).state.buffer },
          trace := (HandleClient.joining st0 fd env).1.trace ++
            (HandleClient.loop fd (HandleClient.joining st0 fd env).2 env 0 recvs
              (HandleClient.joining st0 fd env).1.state).trace ++
            (TerminateClient
              (HandleClient.loop fd (HandleClient.joining st0 fd env).2 env 0 recvs
                (HandleClient.joining st0 fd env).1.state).state.client_sockets
              fd 0 (cstr "Tearing down client.") env.errno env.left_writes).2,
          control := Control.exited } := by
      unfold HandleClient
      simp only [hj, hl, if_true]
    rw [hH]
    exact ⟨rfl, rfl⟩

/-- C12, witness: a clean close (`recv` returns 0) in the session of client 5. -/
theorem C12_recv_result_decides_witness :
    (HandleClient.loop 5 10 calmEnv 0 [⟨0, []⟩] freshState).control = Control.left_loop ∧
      writesOf (HandleClient.loop 5 10 calmEnv 0 [⟨0, []⟩] freshState).trace = [] :=
  have h := (C12_recv_result_decides freshState 5 10 calmEnv 0 ⟨0, []⟩ [] (by decide)).1
    (by decide)
  ⟨h.1, h.2.2.1⟩

/-! ### The accept loop and the set-up -/

/-- C13 (as the code has it). A failure of `accept` is fatal: when `accept` returns `-1`
the accept loop prints the line `[Exit <errno>]: Couldn't accept request from client.` and
calls `exit(success)`; the client table is as it was, and no later result of `accept` is
looked at. -/
theorem C13_accept_failure_is_fatal (success errno status : Int) (client_sockets : List Int)
    (rest : List (Int × Int)) :
    main.loop success errno ((-1, status) :: rest) client_sockets =
        { client_sockets := client_sockets,
          trace := [Event.printf (exitText errno (cstr "Couldn't accept request from client.")),
            Event.exit success],
          goes_on := false } ∧
      main.iteration success errno client_sockets (-1) status =
        { client_sockets := client_sockets,
          trace := [Event.printf (exitText errno (cstr "Couldn't accept request from client.")),
            Event.exit success],
          goes_on := false } := by
  have hit : main.iteration success errno client_sockets (-1) status =
      { client_sockets := client_sockets,
        trace := [Event.printf (exitText errno (cstr "Couldn't accept request from client.")),
          Event.exit success],
        goes_on := false } := by
    unfold main.iteration
    simp only [if_true, Terminate]
  refine ⟨?_, hit⟩
  simp only [main.loop, hit, Bool.false_eq_true, if_false]

set_option maxRecDepth 1000000 in
/-- C13, counterexample. After a set-up in which every call succeeds, `accept` returns `-1`
and would then return the descriptor 7: the process exits (with code 0), and 7 is never
registered. -/
theorem C13_accept_failure_exits :
    (main 2 calmSetup [(-1, 0), (7, 0)]).goes_on = false ∧
      (main 2 calmSetup [(-1, 0), (7, 0)]).trace =
        [Event.printf (cstr "[Info]: Waiting for clients...\n"),
          Event.printf (cstr "[Exit 0]: Couldn't accept request from client.\n"),
          Event.exit 0] ∧
      (main 2 calmSetup [(-1, 0), (7, 0)]).client_sockets = emptyTable ∧
      (main 2 calmSetup [(7, 0)]).client_sockets = 7 :: List.replicate 254 0 := by
  refine ⟨by decide, by decide, by decide, by decide⟩

theorem setup_exit_codes (env : SetupEnv) (accepts : List (Int × Int)) :
    (∀ argc : Int, argc ≠ 2 →
      main argc env accepts =
        { client_sockets := emptyTable,
          trace := [Event.printf (exitText env.errno (cstr "Usage: <port>")), Event.exit 1],
          goes_on := false }) ∧
      (env.socket_result ≠ -1 → 0 < env.inet_pton_result → env.bind_result = -1 →
        main 2 env accepts =
          { client_sockets := emptyTable,
            trace := [Event.printf (exitText env.errno (cstr "Couldn't bind socket.")),
              Event.exit (-1)],
            goes_on := false }) ∧
      (env.socket_result ≠ -1 → 0 < env.inet_pton_result → env.bind_result ≠ -1 →
        env.listen_result = -1 →
        main 2 env accepts =
          { client_sockets := emptyTable,
            trace := [Event.printf (exitText env.errno (cstr "Can't listen to socket.")),
              Event.exit (-1)],
            goes_on := false }) ∧
      (env.socket_result = -1 →
        main 2 env accepts =
          { client_sockets := emptyTable,
            trace := [Event.printf (exitText env.errno (cstr "Couldn't create socket.")),
              Event.exit 0],
            goes_on := false }) := by
  refine ⟨?_, ?_, ?_, ?_⟩
  · intro argc h
    simp only [main, main.setup, h, ne_eq, not_false_eq_true, if_true, Terminate]
  · intro h1 h2 h3
    have h2n : ¬ env.inet_pton_result ≤ 0 := by omega
    simp only [main, main.setup, ne_eq, not_true_eq_false, if_false, h1, h2n, h3, if_true,
      Terminate]
  · intro h1 h2 h3 h4
    have h2n : ¬ env.inet_pton_result ≤ 0 := by omega
    simp only [main, main.setup, ne_eq, not_true_eq_false, if_false, h1, h2n, h3, h4,
      if_true, Terminate]
  · intro h1
    simp only [main, main.setup, ne_eq, not_true_eq_false, if_false, h1, if_true, Terminate]

set_option maxRecDepth 1000000 in
/-- C14, the failing input. With the right argument count, when `socket` fails (here with
`errno` 24) `main` prints `[Exit 24]: Couldn't create socket.` and calls `exit(0)`: the exit
code of this fatal set-up failure is zero. -/
theorem C14_socket_failure_exits_with_zero :
    main 2 socketFails [] =
      { client_sockets := emptyTable,
        trace := [Event.printf (cstr "[Exit 24]: Couldn't create socket.\n"), Event.exit 0],
        goes_on := false } := by
  decide

/-! ### The order of a teardown -/

set_option maxRecDepth 1000000 in
/-- C16, counterexample. The teardown of client 5 in the table that holds the clients 4 and
5: `close(5)` comes first, the write of the notification to client 4 after it. -/
theorem C16_close_comes_first :
    (TerminateClient twoClients 5 0 (cstr "Tearing down client.") 0 (fun _ => 1)).2 =
      [Event.close 5, Event.write 4 (leftText 5),
        Event.printf (cstr "[Exit 0]: Tearing down client.\n"), Event.pthread_exit 0] := by
  decide

/-- C16 (as the code has it). In `TerminateClient` the entry of the leaving client is
removed from the table and its connection closed first; the "left" notification is
dispatched after that, on the table without the entry (so to the remaining clients); the
log line and `pthread_exit` come last. -/
theorem C16_removal_then_notification (client_sockets : List Int) (fd code errno : Int)
    (message : List Nat) (write_result : Nat → Int)
    (hlen : client_sockets.length = MAXIMUM_NUMBER_OF_CLIENTS) (hfd : fd ∈ client_sockets) :
    (TerminateClient client_sockets fd code message errno write_result).2 =
        Event.close fd ::
          (DispatchMessage (TerminateClient.remove client_sockets fd).1 fd
            (sprintf (List.replicate 255 0) (leftText fd)) (leftText fd).length
            write_result).2 ++
          [Event.printf (exitText errno message), Event.pthread_exit code] ∧
      (TerminateClient.remove client_sockets fd).2 = [Event.close fd] ∧
      (TerminateClient client_sockets fd code message errno write_result).1 =
        (TerminateClient.remove client_sockets fd).1 ∧
      writesOf (TerminateClient client_sockets fd code message errno write_result).2 =
        (recipientSlots (TerminateClient.remove client_sockets fd).1 fd).map
          (fun i => (slot (TerminateClient.remove client_sockets fd).1 i, leftText fd)) := by
  have hrem := remove_eq client_sockets fd hlen
  simp only [hfd, if_true] at hrem
  have hT := terminate_eq client_sockets fd code errno message write_result hlen
  simp only [hfd, if_true] at hT
  rw [hrem, hT]
  refine ⟨rfl, rfl, rfl, ?_⟩
  have hw := terminate_writes client_sockets fd code errno message write_result hlen
  rw [hT] at hw
  exact hw

set_option maxRecDepth 1000000 in
/-- C16, witness: the teardown of client 5 in the table that holds the clients 4 and 5. -/
theorem C16_removal_then_notification_witness :
    (TerminateClient.remove twoClients 5).2 = [Event.close 5] ∧
      (TerminateClient twoClients 5 0 (cstr "Tearing down client.") 0 (fun _ => 1)).1 =
        (TerminateClient.remove twoClients 5).1 :=
  have h := C16_removal_then_notification twoClients 5 0 0 (cstr "Tearing down client.")
    (fun _ => 1) twoClients_length (by decide)
  ⟨h.2.1, h.2.2.1⟩

/-! ### The teardown of the duplex server -/

set_option maxRecDepth 1000000 in
/-- C17, the failing input. On the duplex server the clients with the descriptors 4 and 5
connect (identities 1 and 2); the teardown of the first zeroes `clients[1]`, the slot of the
second: the descriptor 4 stays in `clients[0]`, the "left" notification is written to the
descriptor 4 itself and not to 5, and a later `DispatchMessage` (here from the sender 5)
writes to the closed descriptor 4. -/
theorem C17_duplex_teardown_keeps_socket :
    Duplex.twoRegistered.map (fun r => (r.1.clients, r.2.1, r.2.2)) =
        some (4 :: 5 :: List.replicate 253 0,
          { client_socket := 4, id := 1 }, { client_socket := 5, id := 2 }) ∧
      Duplex.firstTornDown.map (fun r => r.1.clients) =
        some (4 :: 0 :: List.replicate 253 0) ∧
      Duplex.firstTornDown.map (fun r => (writesOf r.2, closesOf r.2)) =
        some ([(4, leftText 1)], [4]) ∧
      writesOf (Duplex.DispatchMessage (4 :: 0 :: List.replicate 253 0) 5 (cstr "hi") 2
        (fun _ => 1)) = [(4, cstr "hi")] := by
  refine ⟨by decide, by decide, by decide, by decide⟩

/-! ### Bounds of the buffer -/

theorem poke_length (buf bytes : List Nat) (off : Nat)
    (h : off + bytes.length ≤ buf.length) : (poke buf off bytes).length = buf.length := by
  simp only [poke, List.length_append, List.length_take, List.length_drop]
  omega

/-- In a session that reaches its loop with no statement of another session between its
lines 98 and 99, for a 32-bit descriptor: `buffer_start_index` is the length of the label,
at most 20, and the receive region and the terminator lie inside the buffer. -/
theorem receive_region_in_bounds_alone (st : ServerState) (socket_fd : Int) (env : SessionEnv)
    (n : Nat) (hbuf : st.buffer.length = BUFFER_SIZE) (hmin : INT_MIN ≤ socket_fd)
    (hmax : socket_fd ≤ INT_MAX) (hid : env.id_write ≠ -1) (hn1 : 1 ≤ n)
    (hn : n ≤ max_size_to_receive) :
    (HandleClient.joining st socket_fd env).2 = (labelText socket_fd).length ∧
      (HandleClient.joining st socket_fd env).2 ≤ 20 ∧
      (HandleClient.joining st socket_fd env).2 + max_size_to_receive ≤ BUFFER_SIZE ∧
      (HandleClient.joining st socket_fd env).2 + n < BUFFER_SIZE ∧
      (∀ (r : RecvResult) (buf : List Nat), r.bytes_received = (n : Int) →
        r.data.length = n → buf.length = BUFFER_SIZE →
        (HandleClient.received buf (HandleClient.joining st socket_fd env).2 r).length =
          BUFFER_SIZE) := by
  have hstart := (joining_buffer st socket_fd env hbuf hmin hmax hid).1
  have hlab : (labelText socket_fd).length ≤ 20 := by
    have := formatInt_length socket_fd hmin hmax
    rw [labelText_length]
    omega
  have hB : BUFFER_SIZE = 1023 := rfl
  have hM : max_size_to_receive = 1000 := rfl
  rw [hstart]
  refine ⟨rfl, hlab, by omega, by omega, ?_⟩
  intro r buf hr hd hlen
  have hidx : (((labelText socket_fd).length : Int) + r.bytes_received).toNat =
      (labelText socket_fd).length + n := by
    rw [hr]; omega
  unfold HandleClient.received
  rw [hidx, poke_length, poke_length, hlen]
  · rw [hd, hlen]; omega
  · rw [poke_length _ _ _ (by rw [hd, hlen]; omega), hlen]
    simp only [List.length_singleton]
    omega

set_option maxRecDepth 1000000 in
/-- C18, the failing input. The session of client 4 is in its loop, with
`buffer_start_index` 10; the session of client 5 stores its label in the shared buffer
(line 98); the `recv` of client 4 then stores 20 bytes from index 10 on; then the session
of client 5 runs line 99: its `buffer_start_index` is `strlen(buffer)` = 30, not the length
10 of its label, and its receive region of 1000 bytes ends outside the buffer of
`BUFFER_SIZE` bytes. -/
theorem C18_overlapped_start_index_out_of_bounds :
    (HandleClient.joining freshState 4 calmEnv).2 = 10 ∧
      (labelText 5).length = 10 ∧
      overlappedStartIndex = 30 ∧
      ¬ overlappedStartIndex ≤ 20 ∧
      BUFFER_SIZE < overlappedStartIndex + max_size_to_receive := by
  refine ⟨by decide, by decide, by decide, by decide, by decide⟩

/-! ### The slot a registration takes -/

theorem slot_cons_zero (x : Int) (xs : List Int) : slot (x :: xs) 0 = x := by
  simp [slot]

theorem slot_cons_succ (x : Int) (xs : List Int) (j : Nat) :
    slot (x :: xs) (j + 1) = slot xs j := by
  simp [slot]

theorem fillFirst_eq_set (c : Int) (xs : List Int) :
    ∀ k : Nat, k < xs.length → slot xs k = 0 → (∀ j, j < k → slot xs j ≠ 0) →
      fillFirst c xs = xs.set k c := by
  induction xs with
  | nil => intro k hk; simp at hk
  | cons x xs ih =>
    intro k hk hfree hlow
    cases k with
    | zero =>
      rw [slot_cons_zero] at hfree
      simp [fillFirst, hfree]
    | succ k =>
      have hx : x ≠ 0 := by
        have := hlow 0 (Nat.succ_pos k)
        rwa [slot_cons_zero] at this
      rw [slot_cons_succ] at hfree
      have hlow2 : ∀ j, j < k → slot xs j ≠ 0 := by
        intro j hj
        have := hlow (j + 1) (Nat.succ_lt_succ hj)
        rwa [slot_cons_succ] at this
      have hk2 : k < xs.length := by simpa using hk
      simp [fillFirst, hx, ih k hk2 hfree hlow2]

theorem zeroFirst_eq_set (fd : Int) (xs : List Int) :
    ∀ k : Nat, k < xs.length → slot xs k = fd → (∀ j, j < k → slot xs j ≠ fd) →
      zeroFirst fd xs = xs.set k 0 := by
  induction xs with
  | nil => intro k hk; simp at hk
  | cons x xs ih =>
    intro k hk hocc hlow
    cases k with
    | zero =>
      rw [slot_cons_zero] at hocc
      simp [zeroFirst, hocc]
    | succ k =>
      have hx : x ≠ fd := by
        have := hlow 0 (Nat.succ_pos k)
        rwa [slot_cons_zero] at this
      rw [slot_cons_succ] at hocc
      have hlow2 : ∀ j, j < k → slot xs j ≠ fd := by
        intro j hj
        have := hlow (j + 1) (Nat.succ_lt_succ hj)
        rwa [slot_cons_succ] at this
      have hk2 : k < xs.length := by simpa using hk
      simp [zeroFirst, hx, ih k hk2 hocc hlow2]

theorem slot_set_self (xs : List Int) (k : Nat) (v : Int) (hk : k < xs.length) :
    slot (xs.set k v) k = v := by
  simp [slot, List.getD_eq_getElem?_getD, List.getElem?_set, hk]

theorem slot_set_other (xs : List Int) (k j : Nat) (v : Int) (h : j ≠ k) :
    slot (xs.set k v) j = slot xs j := by
  have h2 : ¬ k = j := fun e => h e.symm
  simp [slot, List.getD_eq_getElem?_getD, List.getElem?_set, h2]

theorem liveEntries_set_length (c : Int) (hc : c ≠ 0) (xs : List Int) :
    ∀ k : Nat, k < xs.length → slot xs k = 0 →
      (liveEntries (xs.set k c)).length = (liveEntries xs).length + 1 := by
  induction xs with
  | nil => intro k hk; simp at hk
  | cons x xs ih =>
    intro k hk hfree
    cases k with
    | zero =>
      rw [slot_cons_zero] at hfree
      simp [liveEntries, hfree, hc]
    | succ k =>
      rw [slot_cons_succ] at hfree
      have hk2 : k < xs.length := by simpa using hk
      have := ih k hk2 hfree
      simp only [liveEntries] at this
      by_cases hx : x = 0
      · simp [liveEntries, hx, this]
      · simp [liveEntries, hx, this]

/-- C19. For every table with a free slot, `k` being the lowest free index, and every
accepted descriptor `c`: the registration loop stores `c` in slot `k` and changes no other
slot; the number of live entries grows by one when `c` is non-zero; and when
`TerminateClient` has freed the slot `k` of a table whose lower slots are all live, the
next registration takes that slot `k` again. -/
theorem C19_registration_takes_lowest_free_slot (client_sockets : List Int) (c : Int)
    (k : Nat) (hlen : client_sockets.length = MAXIMUM_NUMBER_OF_CLIENTS)
    (hk : k < MAXIMUM_NUMBER_OF_CLIENTS) (hfree : slot client_sockets k = 0)
    (hlow : ∀ j, j < k → slot client_sockets j ≠ 0) :
    main.register client_sockets c = client_sockets.set k c ∧
      slot (main.register client_sockets c) k = c ∧
      (∀ j, j ≠ k → slot (main.register client_sockets c) j = slot client_sockets j) ∧
      (c ≠ 0 → (liveEntries (main.register client_sockets c)).length =
        (liveEntries client_sockets).length + 1) ∧
      (∀ (before : List Int) (fd : Int), before.length = MAXIMUM_NUMBER_OF_CLIENTS →
        fd ≠ 0 → slot before k = fd → (∀ j, j < k → slot before j ≠ 0 ∧ slot before j ≠ fd) →
        (TerminateClient.remove before fd).1 = before.set k 0 ∧
          main.register (TerminateClient.remove before fd).1 c = before.set k c) := by
  have hk2 : k < client_sockets.length := by rw [hlen]; exact hk
  have hreg : main.register client_sockets c = client_sockets.set k c := by
    rw [register_eq _ _ hlen]
    exact fillFirst_eq_set c client_sockets k hk2 hfree hlow
  refine ⟨hreg, ?_, ?_, ?_, ?_⟩
  · rw [hreg]; exact slot_set_self _ _ _ hk2
  · intro j hj
    rw [hreg]; exact slot_set_other _ _ _ _ hj
  · intro hc
    rw [hreg]; exact liveEntries_set_length c hc client_sockets k hk2 hfree
  · intro before fd hlen0 hfd hocc hlow0
    have hk0 : k < before.length := by rw [hlen0]; exact hk
    have hrem : (TerminateClient.remove before fd).1 = before.set k 0 := by
      rw [remove_eq _ _ hlen0]
      exact zeroFirst_eq_set fd before k hk0 hocc (fun j hj => (hlow0 j hj).2)
    refine ⟨hrem, ?_⟩
    rw [hrem, register_eq _ _ (by rw [List.length_set, hlen0])]
    rw [fillFirst_eq_set c (before.set k 0) k (by rw [List.length_set]; exact hk0)
      (slot_set_self _ _ _ hk0)
      (fun j hj => by
        rw [slot_set_other _ _ _ _ (Nat.ne_of_lt hj)]
        exact (hlow0 j hj).1)]
    exact List.set_set _ _ _ _

set_option maxRecDepth 1000000 in
/-- C19, witness: the descriptor 6 registered in the table that holds the clients 4 and 5;
the lowest free slot is 2. -/
theorem C19_registration_takes_lowest_free_slot_witness :
    main.register twoClients 6 = twoClients.set 2 6 ∧
      slot (main.register twoClients 6) 2 = 6 :=
  have h := C19_registration_takes_lowest_free_slot twoClients 6 2 twoClients_length
    (by decide) (by decide) (by decide)
  ⟨h.1, h.2.1⟩

/-! ### The table after any sequence of atomic steps -/

theorem liveEntries_fillFirst_perm (c : Int) (hc : c ≠ 0) (xs : List Int)
    (h0 : (0 : Int) ∈ xs) : (liveEntries (fillFirst c xs)).Perm (c :: liveEntries xs) := by
  induction xs with
  | nil => simp at h0
  | cons x xs ih =>
    by_cases hx : x = 0
    · subst hx
      have h1 : liveEntries (fillFirst c (0 :: xs)) = c :: liveEntries xs := by
        simp [fillFirst, liveEntries, hc]
      have h2 : liveEntries (0 :: xs) = liveEntries xs := by simp [liveEntries]
      rw [h1, h2]
    · have h0' : (0 : Int) ∈ xs := by
        rcases List.mem_cons.1 h0 with e | e
        · exact absurd e.symm hx
        · exact e
      have h1 : liveEntries (fillFirst c (x :: xs)) = x :: liveEntries (fillFirst c xs) := by
        simp [fillFirst, liveEntries, hx]
      have h2 : liveEntries (x :: xs) = x :: liveEntries xs := by simp [liveEntries, hx]
      rw [h1, h2]
      exact ((ih h0').cons x).trans (List.Perm.swap c x _)

theorem zero_mem_of_live_lt (xs : List Int) (h : (liveEntries xs).length < xs.length) :
    (0 : Int) ∈ xs := by
  by_contra hne
  have hall : liveEntries xs = xs := by
    unfold liveEntries
    rw [List.filter_eq_self]
    intro a ha
    have : a ≠ 0 := fun e => hne (e ▸ ha)
    simpa using this
  rw [hall] at h
  exact Nat.lt_irrefl _ h

theorem zero_not_mem_liveEntries (xs : List Int) : (0 : Int) ∉ liveEntries xs := by
  simp [liveEntries]

theorem atomic_invariant (steps : List AtomicStep) :
    ∀ (tbl live : List Int), tbl.length = MAXIMUM_NUMBER_OF_CLIENTS →
      (liveEntries tbl).Nodup → (liveEntries tbl).Perm live → joinsFresh live steps →
      (runAtomic tbl steps).length = MAXIMUM_NUMBER_OF_CLIENTS ∧
        (liveEntries (runAtomic tbl steps)).Nodup ∧
        (liveEntries (runAtomic tbl steps)).Perm (joinedNotLeft live steps) := by
  induction steps with
  | nil => intro tbl live hlen hnd hperm _; exact ⟨hlen, hnd, hperm⟩
  | cons step steps ih =>
    intro tbl live hlen hnd hperm hvalid
    have hrun : runAtomic tbl (step :: steps) = runAtomic (applyAtomic tbl step) steps := rfl
    have hjoin : joinedNotLeft live (step :: steps) =
        joinedNotLeft (joinedStep live step) steps := rfl
    rw [hrun, hjoin]
    cases step with
    | register c =>
      simp only [joinsFresh] at hvalid
      obtain ⟨hc0, hcl, hroom, hrest⟩ := hvalid
      have hctbl : c ∉ tbl := by
        intro hm
        have : c ∈ liveEntries tbl := by
          simp only [liveEntries, List.mem_filter]
          exact ⟨hm, by simpa using hc0⟩
        exact hcl (hperm.mem_iff.1 this)
      have hzero : (0 : Int) ∈ tbl := by
        apply zero_mem_of_live_lt
        rw [hperm.length_eq, hlen]
        exact hroom
      simp only [applyAtomic, joinedStep]
      rw [register_eq _ _ hlen]
      exact ih _ _ (by rw [fillFirst_length, hlen])
        (liveEntries_fillFirst_nodup c tbl hctbl hnd)
        ((liveEntries_fillFirst_perm c hc0 tbl hzero).trans (hperm.cons c)) hrest
    | unregister fd errno w =>
      simp only [joinsFresh] at hvalid
      have htbl : (TerminateClient tbl fd 0 (cstr "Tearing down client.") errno w).1 =
          zeroFirst fd tbl := by rw [terminate_eq _ _ _ _ _ _ hlen]
      simp only [applyAtomic]
      rw [htbl]
      refine ih _ _ (by rw [zeroFirst_length, hlen]) (liveEntries_zeroFirst_nodup fd tbl hnd)
        ?_ hvalid
      have hndl : live.Nodup := hperm.nodup_iff.1 hnd
      have hfilter : joinedStep live (AtomicStep.unregister fd errno w) = live.erase fd := by
        simp only [joinedStep]
        rw [hndl.erase_eq_filter]
      rw [hfilter]
      rcases liveEntries_zeroFirst fd tbl with h | ⟨h0, hsame⟩
      · rw [h]; exact hperm.erase fd
      · rw [hsame]
        have hnot : fd ∉ live := by
          rw [h0]
          intro hm
          exact zero_not_mem_liveEntries tbl (hperm.mem_iff.2 hm)
        rw [List.erase_of_not_mem hnot]
        exact hperm
    | broadcast s m sz w =>
      simp only [joinsFresh] at hvalid
      simp only [applyAtomic, dispatch_table]
      exact ih _ _ hlen hnd hperm hvalid

/-- C15. After every sequence of register, unregister (`TerminateClient`) and broadcast
(`DispatchMessage`) steps from the empty table, in which every registration is of a
non-zero descriptor that is not live and happens when fewer than 255 clients are live: the
non-zero entries of `client_sockets` are exactly the clients that have joined and not yet
left, each in one slot only. -/
theorem C15_table_holds_joined_not_left (steps : List AtomicStep)
    (hvalid : joinsFresh [] steps) :
    (∀ c : Int, (c ∈ runAtomic emptyTable steps ∧ c ≠ 0) ↔ c ∈ joinedNotLeft [] steps) ∧
      (liveEntries (runAtomic emptyTable steps)).Perm (joinedNotLeft [] steps) ∧
      (liveEntries (runAtomic emptyTable steps)).Nodup ∧
      (runAtomic emptyTable steps).length = MAXIMUM_NUMBER_OF_CLIENTS := by
  obtain ⟨hlen, hnd, hperm⟩ := atomic_invariant steps emptyTable [] emptyTable_length
    (by rw [liveEntries_emptyTable]; exact List.nodup_nil)
    (by rw [liveEntries_emptyTable]) hvalid
  refine ⟨?_, hperm, hnd, hlen⟩
  intro c
  rw [← hperm.mem_iff]
  simp [liveEntries]

set_option maxRecDepth 1000000 in
/-- C15, witness: 4 joins, 5 joins, 5 broadcasts, 4 leaves, 6 joins. -/
theorem C15_table_holds_joined_not_left_witness :
    (liveEntries (runAtomic emptyTable
      [AtomicStep.register 4, AtomicStep.register 5,
        AtomicStep.broadcast 5 (cstr "hi") 2 (fun _ => 1),
        AtomicStep.unregister 4 0 (fun _ => 1), AtomicStep.register 6])).Perm
      (joinedNotLeft []
        [AtomicStep.register 4, AtomicStep.register 5,
          AtomicStep.broadcast 5 (cstr "hi") 2 (fun _ => 1),
          AtomicStep.unregister 4 0 (fun _ => 1), AtomicStep.register 6]) :=
  (C15_table_holds_joined_not_left
    [AtomicStep.register 4, AtomicStep.register 5,
      AtomicStep.broadcast 5 (cstr "hi") 2 (fun _ => 1),
      AtomicStep.unregister 4 0 (fun _ => 1), AtomicStep.register 6] (by decide)).2.1

end CppChat
